import Mathlib

/-!
Verification development for the ugc-video-factory pipeline orchestrator.

Shallow embedding of:
* the `Joker` orchestrator class (part_007, second file, lines 321-670):
  state record, retry engine, quality gates, cost ledger and the `run`
  sequence, parameterised by the behaviour of the six stage providers;
* the pure state helpers of `src/lib/types.ts` (`updateStepStatus`,
  `updateCosts`);
* `calculateProgress` from the utility module (part_004);
* the quality loop of `generateMarketingAngles` (part_005);
* the retrying vision client `callVisionAPIWithRetry` (`src/lib/pipeline/vision.ts`);
* `escapeHtml` and `createTimeline` from the Shotstack assembler
  (part_007, first file).

Numbers that are JavaScript `number`s are modelled as `ℚ`; timestamps as
`ℕ` ticks supplied explicitly where a function reads the clock.  Provider
calls are modelled as oracles: a function from the invocation index to the
outcome of that invocation.
-/

/-- Decidable equality for `Except`, used to evaluate the concrete
witnesses below. -/
instance exceptDecEq {ε α : Type} [DecidableEq ε] [DecidableEq α] :
    DecidableEq (Except ε α) := fun a b =>
  match a, b with
  | .ok x, .ok y =>
      if h : x = y then .isTrue (by rw [h]) else .isFalse (by simp [h])
  | .error x, .error y =>
      if h : x = y then .isTrue (by rw [h]) else .isFalse (by simp [h])
  | .ok _, .error _ => .isFalse (by simp)
  | .error _, .ok _ => .isFalse (by simp)

/-- The six pipeline stages, in their fixed execution order (the keys of
`steps` in part_007 and of `PipelineSteps` in types.ts). -/
inductive StepName
  | scraping | vision | background | content | video | assembly
deriving DecidableEq

/-- The string literal used for a stage at the orchestrator call sites. -/
def StepName.str : StepName → String
  | .scraping => "scraping"
  | .vision => "vision"
  | .background => "background"
  | .content => "content"
  | .video => "video"
  | .assembly => "assembly"

/-- Per-stage status.  The union in types.ts is
`pending | running | success | failed | retrying`; the `Joker`
orchestrator in part_007 additionally assigns the string `completed`
(its success marker), which is outside the declared union, so the
embedding carries both values. -/
inductive StepStatus
  | pending | running | success | failed | retrying | completed
deriving DecidableEq

/-- Overall run status, from the types.ts `PipelineState` union
`idle | running | completed | failed`.  Note that no `cancelled` value
exists in this type. -/
inductive RunStatus
  | idle | running | completed | failed
deriving DecidableEq

/-- Log levels of `PipelineLogger`. -/
inductive LogLevel
  | info | warn | error | success
deriving DecidableEq

/-- A provider failure: the `StageError{retryable, message}` shape of the
error taxonomy.  `Joker.retryWithBackoff` receives these but, as the
theorems below show, never inspects `retryable`. -/
structure StageErr where
  retryable : Bool
  message : String
deriving DecidableEq

/-- Abstraction of a successful provider result, keeping exactly the
payload fields the orchestrator logic in part_007 inspects: the reported
`cost`, the `confidence` used by the quality gates, the background
stage transparent-image `url`, and the number of marketing `angles` in
the content result (used by the `primaryAngle` check at line 582). -/
structure StageResult where
  cost : ℚ
  confidence : ℚ
  url : String
  angles : ℕ
deriving DecidableEq

/-- Oracle for the six stage providers: `beh s i` is the outcome of the
i-th invocation (0-based) of the provider backing stage `s`. -/
abbrev Behavior := StepName → ℕ → Except StageErr StageResult

namespace Joker

/-- The two ways `retryWithBackoff` can fail: rethrowing the last caught
error (line 448 `throw lastError`), or the fallback
`new Error(stepName failed after N attempts)` when no error was caught
(only reachable with zero allowed attempts). -/
inductive RetryFailure
  | last (e : StageErr)
  | exhausted (stepName : String) (maxAttempts : ℕ)
deriving DecidableEq

/-- Trace of one `retryWithBackoff` call: its outcome, how many times the
wrapped function was invoked, the backoff delays slept (in ms, in
order), and the log entries it emitted via the pipeline logger. -/
structure RetryTrace (α : Type) where
  result : Except RetryFailure α
  calls : ℕ
  sleeps : List ℕ
  logs : List (LogLevel × String)
deriving DecidableEq

/-- One pass of the `for (attempt = 1; attempt <= maxAttempts; attempt++)`
loop of `Joker.retryWithBackoff` (part_007 lines 426-449), written with
structural fuel: `fuel` is the number of loop iterations remaining and
`attempt` the 1-based attempt counter.  `fuel = 0` corresponds to the
loop exiting, which throws `lastError` or the generic exhaustion error. -/
def retryAux {α : Type} (fn : ℕ → Except StageErr α) (stepName : String)
    (maxAttempts : ℕ) : ℕ → ℕ → Option StageErr → RetryTrace α
  | 0, _, lastErr =>
      { result := .error (match lastErr with
          | some e => .last e
          | none => .exhausted stepName maxAttempts)
        calls := 0, sleeps := [], logs := [] }
  | fuel + 1, attempt, _ =>
      match fn (attempt - 1) with
      | .ok a => { result := .ok a, calls := 1, sleeps := [], logs := [] }
      | .error e =>
          let warnMsg := "Attempt " ++ toString attempt ++ "/" ++ toString maxAttempts
              ++ " failed: " ++ e.message
          if fuel = 0 then
            { result := .error (.last e), calls := 1, sleeps := [],
              logs := [(LogLevel.warn, warnMsg)] }
          else
            let backoffMs := min (1000 * 2 ^ (attempt - 1)) 10000
            let rest := retryAux fn stepName maxAttempts fuel (attempt + 1) (some e)
            { result := rest.result, calls := rest.calls + 1,
              sleeps := backoffMs :: rest.sleeps,
              logs := (LogLevel.warn, warnMsg)
                :: (LogLevel.info, "Retrying in " ++ toString backoffMs ++ "ms...")
                :: rest.logs }

/-- `Joker.retryWithBackoff` (part_007 lines 426-449): run the wrapped
call up to `maxAttempts` times, sleeping
`min(1000 * 2^(attempt-1), 10000)` ms between consecutive attempts.
Every caught error is treated the same way; the `retryable` flag of a
`StageErr` is never read. -/
def retryWithBackoff {α : Type} (fn : ℕ → Except StageErr α) (stepName : String)
    (maxAttempts : ℕ) : RetryTrace α :=
  retryAux fn stepName maxAttempts maxAttempts 1 none

end Joker

namespace Joker

/-- The distinct `throw new Error(...)` sites reachable from `Joker.run`,
with the data the source interpolates into the message as payloads:
* `stage e` — the last provider error rethrown by `retryWithBackoff`;
* `exhausted` — the fallback `stepName failed after N attempts` message;
* `contentQuality score threshold` — line 575:
  `Content quality (score) below threshold (threshold). Stopping before
  expensive video generation.`;
* `noAngles` — line 584 `No marketing angles generated`;
* `cancelled` — line 453 `Pipeline cancelled`;
* `nullStepCrash` — marks the path where the catch block at line 643
  would dereference `steps[null]` (cancellation before the first stage):
  in JavaScript this raises a TypeError; the embedding tags it. -/
inductive RunError
  | stage (e : StageErr)
  | exhausted (stepName : String) (maxAttempts : ℕ)
  | contentQuality (score threshold : ℚ)
  | noAngles
  | cancelled
  | nullStepCrash
deriving DecidableEq

/-- Map a retry failure to the error `Joker.run` sees. -/
def RetryFailure.toRunError : RetryFailure → RunError
  | .last e => .stage e
  | .exhausted s n => .exhausted s n

/-- One per-stage record of the part_007 state.  The constructor at lines
369-374 initialises all five fields; `Joker.updateStepStatus` (lines
404-413) later replaces the record with `{ status, progress, error }`,
dropping the two timestamp keys, which the embedding renders as `none`. -/
structure StepRecord where
  status : StepStatus
  progress : ℚ
  startedAt : Option ℕ := none
  completedAt : Option ℕ := none
  error : Option RunError := none
deriving DecidableEq

/-- The `steps` record with its six fixed keys. -/
structure PipelineSteps where
  scraping : StepRecord
  vision : StepRecord
  background : StepRecord
  content : StepRecord
  video : StepRecord
  assembly : StepRecord
deriving DecidableEq

def PipelineSteps.get (s : PipelineSteps) : StepName → StepRecord
  | .scraping => s.scraping
  | .vision => s.vision
  | .background => s.background
  | .content => s.content
  | .video => s.video
  | .assembly => s.assembly

def PipelineSteps.set (s : PipelineSteps) : StepName → StepRecord → PipelineSteps
  | .scraping, r => { s with scraping := r }
  | .vision, r => { s with vision := r }
  | .background, r => { s with background := r }
  | .content, r => { s with content := r }
  | .video, r => { s with video := r }
  | .assembly, r => { s with assembly := r }

/-- The `costs` record of part_007 (lines 381-389): one cumulative amount
per stage key plus the derived `total`.  All six stage keys are always
present — a stage that incurred no cost keeps its initial `0`. -/
structure CostBreakdown where
  scraping : ℚ
  vision : ℚ
  background : ℚ
  content : ℚ
  video : ℚ
  assembly : ℚ
  total : ℚ
deriving DecidableEq

/-- `Joker.addCost`, ledger part (lines 415-419):
`this.state.costs[step] += cost; this.state.costs.total += cost`. -/
def CostBreakdown.addTo (c : CostBreakdown) : StepName → ℚ → CostBreakdown
  | .scraping, a => { c with scraping := c.scraping + a, total := c.total + a }
  | .vision, a => { c with vision := c.vision + a, total := c.total + a }
  | .background, a => { c with background := c.background + a, total := c.total + a }
  | .content, a => { c with content := c.content + a, total := c.total + a }
  | .video, a => { c with video := c.video + a, total := c.total + a }
  | .assembly, a => { c with assembly := c.assembly + a, total := c.total + a }

/-- A quality gate entry as pushed by `Joker.addQualityGate`
(lines 473-478, 499-504, 556-561). -/
structure QualityGate where
  step : StepName
  passed : Bool
  confidence : ℚ
  threshold : ℚ
deriving DecidableEq

/-- A pipeline logger entry.  part_007 tags entries with the current step
name; the catch and cancel paths pass `this.state.currentStep`, which can
be null, hence the `Option`. -/
structure LogEntry where
  step : Option StepName
  level : LogLevel
  message : String
deriving DecidableEq

/-- The part_007 `PipelineState`, restricted to the fields the claims
reason about.  Trimmed as claim-irrelevant: `id`, `productUrl`, the
provider payload fields (`productData`, `visionAnalysis`,
`marketingAngles`, `videoResult`, `finalVideo`), `totalCost` (written
only by the constructor) and the wall-clock timestamps.
`qualityGates` and `transparentImageUrl` are fields the class uses
(lines 421-424, 526, 541, 573) although the constructor literal at lines
363-394 omits them; the embedding initialises the ones it needs to the
empty list and `none`, the only reading under which the gate lookups
inside `Joker.run` are meaningful. -/
structure PipelineState where
  status : RunStatus
  currentStep : Option StepName
  steps : PipelineSteps
  qualityGates : List QualityGate
  costs : CostBreakdown
  transparentImageUrl : Option String := none
  error : Option RunError := none
  logs : List LogEntry := []
deriving DecidableEq

/-- A freshly constructed step record (lines 369-374). -/
def initialStepRecord : StepRecord :=
  { status := .pending, progress := 0, startedAt := none, completedAt := none,
    error := none }

/-- The state built by the `Joker` constructor (lines 363-394). -/
def initialState : PipelineState :=
  { status := .idle
    currentStep := none
    steps :=
      { scraping := initialStepRecord, vision := initialStepRecord,
        background := initialStepRecord, content := initialStepRecord,
        video := initialStepRecord, assembly := initialStepRecord }
    qualityGates := []
    costs :=
      { scraping := 0, vision := 0, background := 0, content := 0, video := 0,
        assembly := 0, total := 0 }
    transparentImageUrl := none
    error := none
    logs := [] }

/-- Number of provider invocations per stage, accumulated by the runs of
`retryWithBackoff`. -/
structure CallCounts where
  scraping : ℕ
  vision : ℕ
  background : ℕ
  content : ℕ
  video : ℕ
  assembly : ℕ
deriving DecidableEq

def CallCounts.get (c : CallCounts) : StepName → ℕ
  | .scraping => c.scraping
  | .vision => c.vision
  | .background => c.background
  | .content => c.content
  | .video => c.video
  | .assembly => c.assembly

def CallCounts.add (c : CallCounts) : StepName → ℕ → CallCounts
  | .scraping, k => { c with scraping := c.scraping + k }
  | .vision, k => { c with vision := c.vision + k }
  | .background, k => { c with background := c.background + k }
  | .content, k => { c with content := c.content + k }
  | .video, k => { c with video := c.video + k }
  | .assembly, k => { c with assembly := c.assembly + k }

def initialCalls : CallCounts :=
  { scraping := 0, vision := 0, background := 0, content := 0, video := 0,
    assembly := 0 }

/-- The observable surface of one `Joker` instance while `run` executes:
the mutable state, the logger contents, every snapshot handed to the
`onStateChange` observer (in order), and the per-stage provider
invocation counts. -/
structure Machine where
  st : PipelineState
  loggerLogs : List LogEntry
  snapshots : List PipelineState
  calls : CallCounts
deriving DecidableEq

/-- The machine at construction time. -/
def Machine.initial : Machine :=
  { st := initialState, loggerLogs := [], snapshots := [], calls := initialCalls }

/-- A `PipelineLogger` append. -/
def Machine.log (m : Machine) (step : Option StepName) (lvl : LogLevel)
    (msg : String) : Machine :=
  { m with loggerLogs := m.loggerLogs ++ [{ step := step, level := lvl, message := msg }] }

/-- `Joker.emitStateChange` (lines 397-402): copy the logger into
`state.logs` and hand a snapshot to the observer. -/
def Machine.emit (m : Machine) : Machine :=
  let st := { m.st with logs := m.loggerLogs }
  { m with st := st, snapshots := m.snapshots ++ [st] }

/-- `Joker.updateStepStatus` (lines 404-413): replace the step record with
`{ status, progress, error }` (the timestamp keys are dropped), set
`currentStep`, then emit. -/
def Machine.updateStepStatus (m : Machine) (step : StepName) (status : StepStatus)
    (progress : ℚ) (error : Option RunError := none) : Machine :=
  let st := { m.st with
    steps := m.st.steps.set step
      { status := status, progress := progress, startedAt := none,
        completedAt := none, error := error }
    currentStep := some step }
  Machine.emit { m with st := st }

/-- `Joker.addCost` (lines 415-419). -/
def Machine.addCost (m : Machine) (step : StepName) (amount : ℚ) : Machine :=
  Machine.emit { m with st := { m.st with costs := m.st.costs.addTo step amount } }

/-- `Joker.addQualityGate` (lines 421-424). -/
def Machine.addQualityGate (m : Machine) (g : QualityGate) : Machine :=
  Machine.emit { m with st := { m.st with qualityGates := m.st.qualityGates ++ [g] } }

/-- Run `retryWithBackoff` for a stage: thread the provider oracle, add
the retry log entries to the pipeline logger (tagged with the stage, as
the source does via `stepName as keyof PipelineSteps`), and count the
provider invocations. -/
def Machine.runRetry (m : Machine) (beh : Behavior) (step : StepName)
    (maxAttempts : ℕ) : Machine × Except RetryFailure StageResult :=
  let t := retryWithBackoff (fun i => beh step i) step.str maxAttempts
  ({ m with
      calls := m.calls.add step t.calls
      loggerLogs := m.loggerLogs ++
        t.logs.map (fun p => { step := some step, level := p.1, message := p.2 }) },
    t.result)

/-- `Joker.checkCancelled` (lines 451-455), at the k-th stage boundary.
`ca k` is the value of the cooperative cancellation flag at that check;
`cancel()` sets the flag between checks, so a monotone `ca` models a
single `cancel()` call. -/
def checkCancelled (ca : ℕ → Bool) (k : ℕ) : Option RunError :=
  if ca k then some .cancelled else none

/-- Step 1 of `Joker.run` (lines 463-485): scraping. -/
def stageScraping (beh : Behavior) (th : ℚ) (n : ℕ) (m : Machine) :
    Machine × Except RunError StageResult :=
  let m := m.updateStepStatus .scraping .running 0
  let m := m.log (some .scraping) .info "Scraping product data..."
  match m.runRetry beh .scraping n with
  | (m, .error f) => (m, .error f.toRunError)
  | (m, .ok v) =>
      let m := m.addCost .scraping v.cost
      let m := m.addQualityGate
        { step := .scraping, passed := decide (v.confidence ≥ th),
          confidence := v.confidence, threshold := th }
      let m := m.updateStepStatus .scraping .completed 100
      let m := m.log (some .scraping) .success "Product data scraped"
      (m, .ok v)

/-- Step 2 of `Joker.run` (lines 489-510): vision analysis. -/
def stageVision (beh : Behavior) (th : ℚ) (n : ℕ) (m : Machine) :
    Machine × Except RunError StageResult :=
  let m := m.updateStepStatus .vision .running 0
  let m := m.log (some .vision) .info "Analyzing product images..."
  match m.runRetry beh .vision n with
  | (m, .error f) => (m, .error f.toRunError)
  | (m, .ok v) =>
      let m := m.addCost .vision v.cost
      let m := m.addQualityGate
        { step := .vision, passed := decide (v.confidence ≥ th),
          confidence := v.confidence, threshold := th }
      let m := m.updateStepStatus .vision .completed 100
      let m := m.log (some .vision) .success "Vision analysis completed"
      (m, .ok v)

/-- Step 3 of `Joker.run` (lines 514-535): background removal, with
graceful degradation.  The retry cap is the literal `2` (line 522,
`Lower retry count for optional step`); on failure the step is still
marked completed after a warning, no cost is added, and
`transparentImageUrl` stays unset. -/
def stageBackground (beh : Behavior) (m : Machine) : Machine :=
  let m := m.updateStepStatus .background .running 0
  let m := m.log (some .background) .info "Removing background from primary image..."
  match m.runRetry beh .background 2 with
  | (m, .ok v) =>
      let m := { m with st := { m.st with transparentImageUrl := some v.url } }
      let m := m.addCost .background v.cost
      let m := m.updateStepStatus .background .completed 100
      m.log (some .background) .success "Background removed successfully"
  | (m, .error _) =>
      let m := m.log (some .background) .warn
        "Background removal failed, continuing with original image"
      m.updateStepStatus .background .completed 100

/-- Step 4 of `Joker.run` (lines 540-567): content generation, preceded by
the advisory (soft) vision-gate check of lines 541-544. -/
def stageContent (beh : Behavior) (th : ℚ) (n : ℕ) (m : Machine) :
    Machine × Except RunError StageResult :=
  let m :=
    match m.st.qualityGates.find? (fun g => g.step == StepName.vision) with
    | some g =>
        if g.passed then m
        else m.log (some .content) .warn "Vision quality below threshold, but continuing..."
    | none => m
  let m := m.updateStepStatus .content .running 0
  let m := m.log (some .content) .info "Generating marketing angles..."
  match m.runRetry beh .content n with
  | (m, .error f) => (m, .error f.toRunError)
  | (m, .ok v) =>
      let m := m.addCost .content v.cost
      let m := m.addQualityGate
        { step := .content, passed := decide (v.confidence ≥ th),
          confidence := v.confidence, threshold := th }
      let m := m.updateStepStatus .content .completed 100
      let m := m.log (some .content) .success "Marketing angles generated"
      (m, .ok v)

/-- The hard gate before video generation (lines 572-576): if the content
gate did not pass, throw the fatal error carrying the measured score and
the configured threshold, before the video step begins. -/
def gateVideo (th : ℚ) (m : Machine) : Option RunError :=
  match m.st.qualityGates.find? (fun g => g.step == StepName.content) with
  | some g =>
      if g.passed then none else some (.contentQuality g.confidence th)
  | none => none

/-- Step 5 of `Joker.run` (lines 578-603): video generation.  `angles` is
the number of marketing angles in the content result; the
`primaryAngle` check of lines 582-585 throws when it is zero. -/
def stageVideo (beh : Behavior) (n : ℕ) (angles : ℕ) (m : Machine) :
    Machine × Except RunError StageResult :=
  let m := m.updateStepStatus .video .running 0
  let m := m.log (some .video) .info "Generating video content..."
  if angles = 0 then (m, .error .noAngles)
  else
    match m.runRetry beh .video n with
    | (m, .error f) => (m, .error f.toRunError)
    | (m, .ok v) =>
        let m := m.addCost .video v.cost
        let m := m.updateStepStatus .video .completed 100
        let m := m.log (some .video) .success "Video generated"
        (m, .ok v)

/-- Step 6 of `Joker.run` (lines 607-625): assembly. -/
def stageAssembly (beh : Behavior) (n : ℕ) (m : Machine) :
    Machine × Except RunError StageResult :=
  let m := m.updateStepStatus .assembly .running 0
  let m := m.log (some .assembly) .info "Assembling final video..."
  match m.runRetry beh .assembly n with
  | (m, .error f) => (m, .error f.toRunError)
  | (m, .ok v) =>
      let m := m.addCost .assembly v.cost
      let m := m.updateStepStatus .assembly .completed 100
      let m := m.log (some .assembly) .success "Video assembly completed"
      (m, .ok v)

/-- The try-block of `Joker.run` (lines 458-636): the six stages in their
fixed order, each preceded by a `checkCancelled` boundary, with the hard
content gate before video.  Returns the machine together with `none` on
success or the thrown error. -/
def runBody (beh : Behavior) (th : ℚ) (n : ℕ) (ca : ℕ → Bool) (m : Machine) :
    Machine × Option RunError :=
  match checkCancelled ca 0 with
  | some e => (m, some e)
  | none =>
  match stageScraping beh th n m with
  | (m, .error e) => (m, some e)
  | (m, .ok _) =>
  match checkCancelled ca 1 with
  | some e => (m, some e)
  | none =>
  match stageVision beh th n m with
  | (m, .error e) => (m, some e)
  | (m, .ok _) =>
  match checkCancelled ca 2 with
  | some e => (m, some e)
  | none =>
  let m := stageBackground beh m
  match checkCancelled ca 3 with
  | some e => (m, some e)
  | none =>
  match stageContent beh th n m with
  | (m, .error e) => (m, some e)
  | (m, .ok vc) =>
  match checkCancelled ca 4 with
  | some e => (m, some e)
  | none =>
  match gateVideo th m with
  | some e => (m, some e)
  | none =>
  match stageVideo beh n vc.angles m with
  | (m, .error e) => (m, some e)
  | (m, .ok _) =>
  match checkCancelled ca 5 with
  | some e => (m, some e)
  | none =>
  match stageAssembly beh n m with
  | (m, .error e) => (m, some e)
  | (m, .ok _) =>
      let m := m.log (some .assembly) .success "Pipeline completed successfully"
      (m.emit, none)

/-- `Joker.run` (lines 457-651), over a provider oracle `beh`, quality
threshold `th` (`options.qualityThreshold ?? 0.7`), transport retry cap
`n` (`options.maxRetries ?? 3`) and cancellation-flag schedule `ca`.
On an error the catch block (lines 638-650) logs, re-marks the current
step as failed — preserving its previous progress, never setting
`completedAt`, and — notably — never assigning `state.status` —, stores
the error and rethrows.  With a null `currentStep` the catch would crash
in JavaScript (`steps[null].progress`); the embedding tags that path
with `RunError.nullStepCrash`. -/
def run (beh : Behavior) (th : ℚ) (n : ℕ) (ca : ℕ → Bool) :
    Machine × Except RunError PipelineState :=
  let m := Machine.initial
  let m := m.log (some .scraping) .info "Starting pipeline"
  match runBody beh th n ca m with
  | (m, none) => (m, .ok m.st)
  | (m, some e) =>
      let m := m.log m.st.currentStep .error "Pipeline failed"
      match m.st.currentStep with
      | some s =>
          let prev := (m.st.steps.get s).progress
          let m := m.updateStepStatus s .failed prev (some e)
          let m := Machine.emit { m with st := { m.st with error := some e } }
          (m, .error e)
      | none => (m, .error .nullStepCrash)

end Joker

namespace Types

/-- `PipelineStepStatus` from types.ts (lines 43-49): the pure-helper
variant of a step record, with string timestamps modelled as `ℕ` ticks
and the error as a plain message. -/
structure PipelineStepStatus where
  status : StepStatus
  progress : ℚ
  startedAt : Option ℕ
  completedAt : Option ℕ
  error : Option String
deriving DecidableEq

/-- `PipelineSteps` from types.ts (lines 51-58). -/
structure PipelineSteps where
  scraping : PipelineStepStatus
  vision : PipelineStepStatus
  background : PipelineStepStatus
  content : PipelineStepStatus
  video : PipelineStepStatus
  assembly : PipelineStepStatus
deriving DecidableEq

def PipelineSteps.get (s : PipelineSteps) : StepName → PipelineStepStatus
  | .scraping => s.scraping
  | .vision => s.vision
  | .background => s.background
  | .content => s.content
  | .video => s.video
  | .assembly => s.assembly

def PipelineSteps.set (s : PipelineSteps) : StepName → PipelineStepStatus → PipelineSteps
  | .scraping, r => { s with scraping := r }
  | .vision, r => { s with vision := r }
  | .background, r => { s with background := r }
  | .content, r => { s with content := r }
  | .video, r => { s with video := r }
  | .assembly, r => { s with assembly := r }

/-- The part of the types.ts `PipelineState` that `updateStepStatus`
reads or writes; the remaining fields are spread through unchanged and
are trimmed here. -/
structure PipelineState where
  currentStep : Option StepName
  steps : PipelineSteps
deriving DecidableEq

/-- `updateStepStatus` from types.ts (lines 445-477).  `now` stands for
`new Date().toISOString()`.  The helper sets `startedAt` on the first
transition to running, and forces `completedAt := now` and
`progress := 100` on a transition to success or failed; it never clears
a previously set `completedAt` on other transitions. -/
def updateStepStatus (state : PipelineState) (step : StepName)
    (status : StepStatus) (progress : ℚ) (error : Option String) (now : ℕ) :
    PipelineState :=
  let old := state.steps.get step
  let u1 : PipelineStepStatus :=
    { old with status := status, progress := progress, error := error }
  let u2 :=
    if status = .running ∧ old.startedAt = none then
      { u1 with startedAt := some now }
    else u1
  let u3 :=
    if status = .success ∨ status = .failed then
      { u2 with completedAt := some now, progress := 100 }
    else u2
  { currentStep := if status = .running then some step else state.currentStep
    steps := state.steps.set step u3 }

/-- `CostBreakdown` from types.ts (lines 60-68): per-provider keys plus
the derived total. -/
structure CostBreakdown where
  apify : ℚ
  openai : ℚ
  mistral : ℚ
  vidgo : ℚ
  shotstack : ℚ
  removebg : ℚ
  total : ℚ
deriving DecidableEq

/-- An optional-keys cost update object: `none` means the key is absent
(the TypeScript signature takes a subset of the cost keys). -/
structure CostUpdates where
  apify : Option ℚ := none
  openai : Option ℚ := none
  mistral : Option ℚ := none
  vidgo : Option ℚ := none
  shotstack : Option ℚ := none
  removebg : Option ℚ := none
deriving DecidableEq

/-- `updateCosts` from types.ts (lines 500-522), restricted to the cost
record it transforms (the surrounding state spread is unchanged): merge
the optional updates, then recompute `total` as the sum of the six
provider keys. -/
def updateCosts (c : CostBreakdown) (u : CostUpdates) : CostBreakdown :=
  let merged : CostBreakdown :=
    { apify := u.apify.getD c.apify
      openai := u.openai.getD c.openai
      mistral := u.mistral.getD c.mistral
      vidgo := u.vidgo.getD c.vidgo
      shotstack := u.shotstack.getD c.shotstack
      removebg := u.removebg.getD c.removebg
      total := c.total }
  { merged with total := merged.apify + merged.openai + merged.mistral
      + merged.vidgo + merged.shotstack + merged.removebg }

end Types

namespace Utils

/-- The body of the `for (const key of stepKeys)` loop of
`calculateProgress` (part_004 lines 122-132), folded from the front of
the ordered step list: successes before the first running or failed
step are counted; a running step contributes `progress / 100` and stops
the scan; a failed step stops the scan. -/
def calcLoop : List Types.PipelineStepStatus → ℕ × ℚ
  | [] => (0, 0)
  | r :: rest =>
    match r.status with
    | .success =>
        let p := calcLoop rest
        (p.1 + 1, p.2)
    | .running => (0, r.progress / 100)
    | .failed => (0, 0)
    | _ => calcLoop rest

/-- The fixed `stepKeys` order of part_004 lines 109-116. -/
def stepsList (s : Types.PipelineSteps) : List Types.PipelineStepStatus :=
  [s.scraping, s.vision, s.background, s.content, s.video, s.assembly]

/-- `calculateProgress` (part_004 lines 108-136).  `Math.round` is the
round-half-up `round` on `ℚ`. -/
def calculateProgress (steps : Types.PipelineSteps) : ℤ :=
  let p := calcLoop (stepsList steps)
  let overallProgress : ℚ := ((p.1 + p.2) / 6) * 100
  min (round overallProgress) 100

end Utils

/-- A JavaScript-style whitespace test for `trim`. -/
def isJsSpace (c : Char) : Bool :=
  c = ' ' || c = Char.ofNat 9 || c = Char.ofNat 10 || c = Char.ofNat 13

/-- Drop leading whitespace. -/
def dropJsSpace : List Char → List Char
  | [] => []
  | c :: rest => if isJsSpace c then dropJsSpace rest else c :: rest

/-- The JavaScript `String.prototype.trim`, written character-wise so
that it evaluates inside the kernel: strip whitespace from both ends. -/
def jsTrim (s : String) : String :=
  String.mk ((dropJsSpace ((dropJsSpace s.data).reverse)).reverse)

namespace Mistral

/-- One angle of a parsed Mistral response (part_005 lines 24-33),
keeping the fields the quality loop and the mapping at lines 232-251
compute with.  `targetAudience` and `tone` only take part in
`validateAngle`, which is folded into the call oracle. -/
structure AngleRaw where
  hook : String
  script : String
  qualityScore : ℚ
  estimatedEngagement : ℚ
deriving DecidableEq

/-- A parsed and validated `MistralAngleResponse`. -/
structure AngleResponse where
  angles : List AngleRaw
deriving DecidableEq

/-- The `MarketingAngle` built at part_005 lines 232-251 (metadata and
the id/timestamp trimmed). -/
structure MarketingAngle where
  hook : String
  script : String
  qualityScore : ℚ
  confidence : ℚ
  estimatedEngagement : ℚ
deriving DecidableEq

def MIN_QUALITY_SCORE : ℚ := 7

def MAX_RETRIES : ℕ := 3

/-- `calculateAverageQuality` (part_005 lines 124-127).  In the source the
angle list always has length 3 by `validateResponse`; on an empty list
the JavaScript division yields NaN while `ℚ` division by zero yields 0. -/
def calculateAverageQuality (angles : List AngleRaw) : ℚ :=
  (angles.map (fun a => a.qualityScore)).sum / angles.length

/-- `MarketingAngle` construction for one angle (lines 232-251):
`Math.round(q*10)/10` rounding, and
`confidence = Math.min(100, Math.round((q/10)*100))`. -/
def toMarketingAngle (a : AngleRaw) : MarketingAngle :=
  { hook := jsTrim a.hook
    script := jsTrim a.script
    qualityScore := (round (a.qualityScore * 10) : ℚ) / 10
    confidence := min 100 ((round ((a.qualityScore / 10) * 100) : ℤ) : ℚ)
    estimatedEngagement := (round (a.estimatedEngagement * 10) : ℚ) / 10 }

/-- Trace of `callMistralAPIWithRetry`: result, number of chat-API
invocations, and the transport backoff delays slept. -/
structure CallTrace where
  result : Except String (AngleResponse × ℚ)
  calls : ℕ
  sleeps : List ℕ
deriving DecidableEq

/-- `callMistralAPIWithRetry` (part_005 lines 134-191), over an oracle
`b i` giving the outcome of the i-th chat call overall (`start` calls
happened before this invocation): `.ok (resp, cost)` is a response that
parses and validates, `.error msg` any thrown failure (transport, empty
content, parse error, invalid structure).  On an error with
`attempt < MAX_RETRIES` it sleeps `1000 * 2^attempt` ms and recurses;
otherwise the error is wrapped as `Mistral API call failed: msg`.
`fuel` is structural fuel, at least `MAX_RETRIES + 1 - attempt`. -/
def callMistralAux (b : ℕ → Except String (AngleResponse × ℚ)) (start : ℕ) :
    ℕ → ℕ → CallTrace
  | 0, _ => { result := .error "out of fuel", calls := 0, sleeps := [] }
  | fuel + 1, attempt =>
    match b (start + attempt) with
    | .ok r => { result := .ok r, calls := 1, sleeps := [] }
    | .error msg =>
      if attempt < MAX_RETRIES then
        let d := 1000 * 2 ^ attempt
        let rest := callMistralAux b start fuel (attempt + 1)
        { result := rest.result, calls := rest.calls + 1, sleeps := d :: rest.sleeps }
      else
        { result := .error ("Mistral API call failed: " ++ msg), calls := 1,
          sleeps := [] }

def callMistralAPIWithRetry (b : ℕ → Except String (AngleResponse × ℚ))
    (start : ℕ) : CallTrace :=
  callMistralAux b start (MAX_RETRIES + 1) 0

/-- The `lastError` values of the quality loop (part_005 lines 209-263):
either the quality-too-low error built at lines 219-221 — which names
the measured average and `MIN_QUALITY_SCORE` — or a thrown message. -/
inductive LastError
  | quality (avg : ℚ)
  | thrown (msg : String)
deriving DecidableEq

/-- The errors `generateMarketingAngles` can throw: the three input
validations of lines 197-207, or the terminal throw of lines 266-268
carrying `lastError`. -/
inductive GenError
  | envMissing
  | badProduct
  | badVision
  | failed (last : Option LastError)
deriving DecidableEq

/-- Trace of `generateMarketingAngles`: result, how many times the
quality loop invoked the wrapped `callMistralAPIWithRetry`, and the
total number of chat-API invocations underneath. -/
structure GenTrace where
  result : Except GenError (List MarketingAngle)
  outerCalls : ℕ
  apiCalls : ℕ
deriving DecidableEq

/-- The second iteration of the `for (qualityAttempt = 1; ... <= 2)` loop
(part_005 lines 211-264).  `_lastErr` is the `lastError` carried over
from the first iteration: on a successful second call it is either
irrelevant (quality passed) or reassigned and then discarded, because
with `qualityAttempt = 2` the below-threshold branch no longer hits
`continue` and the function falls through to build and return the
angles; on a thrown second call `lastError` is reassigned to the thrown
message before the terminal throw.  Either way the carried value is
never used, which is exactly the behaviour the theorems record. -/
def genAttempt2 (b : ℕ → Except String (AngleResponse × ℚ))
    (apiCallsSoFar : ℕ) (_lastErr : LastError) : GenTrace :=
  let t2 := callMistralAPIWithRetry b apiCallsSoFar
  match t2.result with
  | .ok r =>
      { result := .ok (r.1.angles.map toMarketingAngle)
        outerCalls := 2
        apiCalls := apiCallsSoFar + t2.calls }
  | .error e =>
      { result := .error (.failed (some (.thrown e)))
        outerCalls := 2
        apiCalls := apiCallsSoFar + t2.calls }

/-- `generateMarketingAngles` (part_005 lines 193-269).  The booleans
model the three input validations (API key present, product data with
name and description, vision analysis present).  The quality loop runs
at most two iterations; within an iteration a response whose average
quality is below `MIN_QUALITY_SCORE` triggers a retry only when
`qualityAttempt < 2` — on the second iteration the low-scoring angles
are returned. -/
def generateMarketingAngles (apiKeySet productOk visionOk : Bool)
    (b : ℕ → Except String (AngleResponse × ℚ)) : GenTrace :=
  if apiKeySet = false then
    { result := .error .envMissing, outerCalls := 0, apiCalls := 0 }
  else if productOk = false then
    { result := .error .badProduct, outerCalls := 0, apiCalls := 0 }
  else if visionOk = false then
    { result := .error .badVision, outerCalls := 0, apiCalls := 0 }
  else
    let t1 := callMistralAPIWithRetry b 0
    match t1.result with
    | .ok r =>
        let avg := calculateAverageQuality r.1.angles
        if avg < MIN_QUALITY_SCORE then
          genAttempt2 b t1.calls (.quality avg)
        else
          { result := .ok (r.1.angles.map toMarketingAngle)
            outerCalls := 1
            apiCalls := t1.calls }
    | .error e => genAttempt2 b t1.calls (.thrown e)

end Mistral

namespace Vision

/-- Outcome of one OpenAI chat call in `callVisionAPIWithRetry`
(vision.ts lines 229-291), as seen by its try/catch:
`.ok` — the completion has content and `parseVisionResponse` accepts it
(the parsed payload is irrelevant to the retry logic and trimmed);
`.emptyContent` — the `Empty response from Vision API` throw;
`.parseFailure` — a `parseVisionResponse` throw;
`.apiError status msg` — an `OpenAI.APIError` with the given status;
`.otherFailure` — anything else (for example the timeout race). -/
inductive CallOutcome
  | ok
  | emptyContent
  | parseFailure (msg : String)
  | apiError (status : ℕ) (msg : String)
  | otherFailure (msg : String)
deriving DecidableEq

def MAX_RETRIES : ℕ := 3

def RETRY_DELAY_BASE : ℕ := 2000

/-- The status-specific messages of vision.ts lines 278-287. -/
def mapAPIError (status : ℕ) (msg : String) : String :=
  if status = 400 then "Invalid image or request: " ++ msg
  else if status = 401 then "OpenAI API authentication failed. Check your API key."
  else if status = 429 then "OpenAI API rate limit exceeded. Please try again later."
  else if status = 500 ∨ status = 503 then
    "OpenAI API service error. Please try again later."
  else "OpenAI API error (" ++ toString status ++ "): " ++ msg

/-- Trace of `callVisionAPIWithRetry`: result, number of chat-API
invocations, delays slept. -/
structure VisionTrace where
  result : Except String Unit
  calls : ℕ
  sleeps : List ℕ
deriving DecidableEq

/-- `callVisionAPIWithRetry` (vision.ts lines 229-291) over the oracle
`v`: only an `OpenAI.APIError` with status 429, 500 or 503 and
`attempt < MAX_RETRIES` is retried, after sleeping
`RETRY_DELAY_BASE * 2^attempt`; every other failure propagates at once
(API errors through the status-specific message mapping, other throws
unchanged). -/
def callVisionAux (v : ℕ → CallOutcome) : ℕ → ℕ → VisionTrace
  | 0, _ => { result := .error "out of fuel", calls := 0, sleeps := [] }
  | fuel + 1, attempt =>
    match v attempt with
    | .ok => { result := .ok (), calls := 1, sleeps := [] }
    | .emptyContent =>
        { result := .error "Empty response from Vision API", calls := 1, sleeps := [] }
    | .parseFailure m => { result := .error m, calls := 1, sleeps := [] }
    | .otherFailure m => { result := .error m, calls := 1, sleeps := [] }
    | .apiError status msg =>
      if (status = 429 ∨ status = 500 ∨ status = 503) ∧ attempt < MAX_RETRIES then
        let d := RETRY_DELAY_BASE * 2 ^ attempt
        let rest := callVisionAux v fuel (attempt + 1)
        { result := rest.result, calls := rest.calls + 1, sleeps := d :: rest.sleeps }
      else
        { result := .error (mapAPIError status msg), calls := 1, sleeps := [] }

def callVisionAPIWithRetry (v : ℕ → CallOutcome) : VisionTrace :=
  callVisionAux v (MAX_RETRIES + 1) 0

end Vision

namespace Shotstack

/-- The double-quote character, written by code point to keep the
development free of quote literals. -/
def dquote : Char := Char.ofNat 34

/-- The apostrophe character, by code point. -/
def squote : Char := Char.ofNat 39

/-- Per-character action of the regex replace in `escapeHtml`
(part_007 first file, lines 257-266): each of the five special
characters maps to its HTML entity, every other character to itself. -/
def escapeChar (c : Char) : String :=
  if c = '&' then "&amp;"
  else if c = '<' then "&lt;"
  else if c = '>' then "&gt;"
  else if c = dquote then "&quot;"
  else if c = squote then "&#039;"
  else String.mk [c]

/-- `escapeHtml` (lines 257-266): the global regex replace of the five
special characters, which is exactly the character-wise substitution. -/
def escapeHtml (s : String) : String :=
  String.mk (s.data.flatMap (fun c => (escapeChar c).data))

/-- The hook overlay template of line 219, as a function of the
interpolated (escaped) text. -/
def hookSrc (t : String) : String :=
  "<div style=\"font-family: Arial, sans-serif; font-size: 48px; font-weight: bold; color: white; text-shadow: 2px 2px 4px rgba(0,0,0,0.8); padding: 20px; text-align: center;\">"
    ++ t ++ "</div>"

/-- The caption template of line 239, as a function of the interpolated
(escaped) text. -/
def captionSrc (t : String) : String :=
  "<div style=\"font-family: Arial, sans-serif; font-size: 36px; color: white; background: rgba(0,0,0,0.7); padding: 15px 30px; border-radius: 8px; text-align: center;\">"
    ++ t ++ "</div>"

/-- A Shotstack clip asset (the fields of the `ShotstackClip.asset`
interface, lines 17-22). -/
structure ClipAsset where
  type : String
  src : String
  volume : Option ℚ := none
deriving DecidableEq

/-- A Shotstack clip (interface at lines 16-32; the nested offset is
flattened into its two coordinates). -/
structure ShotstackClip where
  asset : ClipAsset
  start : ℚ
  length : ℚ
  fit : Option String := none
  scale : Option ℚ := none
  position : Option String := none
  offsetX : Option ℚ := none
  offsetY : Option ℚ := none
deriving DecidableEq

structure ShotstackTrack where
  clips : List ShotstackClip
deriving DecidableEq

structure ShotstackTimeline where
  tracks : List ShotstackTrack
deriving DecidableEq

/-- The parameter object of `createTimeline` (lines 166-173). -/
structure TimelineParams where
  videoUrl : String
  productImageUrl : String
  transparentProductUrl : String
  script : String
  hook : String
  videoDuration : ℚ
deriving DecidableEq

/-- Is a character one of the sentence separators of the regex
`/[.!?]+/` at line 233. -/
def isSentenceSep (c : Char) : Bool :=
  c = '.' || c = '!' || c = '?'

/-- Split a character list at every separator character.  The JavaScript
`split(/[.!?]+/)` collapses runs of separators; this version cuts at
every separator, producing extra empty pieces inside runs — after the
`filter(s => s.trim())` step of line 233 (blank pieces dropped) the two
agree, and only the filtered list is ever used. -/
def splitRuns : List Char → List Char → List String
  | [], acc => [String.mk acc.reverse]
  | c :: rest, acc =>
      if isSentenceSep c then String.mk acc.reverse :: splitRuns rest []
      else splitRuns rest (c :: acc)

/-- `script.split(/[.!?]+/).filter(s => s.trim())` (line 233). -/
def sentencesOf (script : String) : List String :=
  (splitRuns script.data []).filter (fun s => jsTrim s != "")

/-- `createTimeline` (part_007 first file, lines 166-255): the base video
track, the product overlay track, a hook overlay track when the hook is
non-blank, and a caption track when the script is non-blank.  Both
pieces of user text enter the HTML sources only through `escapeHtml`.
On an empty sentence list the JavaScript `videoDuration / 0` is
Infinity where `ℚ` gives 0; the caption list is empty either way. -/
def createTimeline (p : TimelineParams) : ShotstackTimeline :=
  let track1 : ShotstackTrack :=
    { clips := [{ asset := { type := "video", src := p.videoUrl, volume := some 1 }
                  start := 0, length := p.videoDuration, fit := some "crop" }] }
  let track2 : ShotstackTrack :=
    { clips := [{ asset := { type := "image", src := p.transparentProductUrl }
                  start := 0, length := p.videoDuration, fit := some "none"
                  scale := some (mkRat 3 10), position := some "bottomRight"
                  offsetX := some (mkRat (-1) 20), offsetY := some (mkRat (-1) 20) }] }
  let base := [track1, track2]
  let withHook :=
    if p.hook != "" && jsTrim p.hook != "" then
      base ++ [{ clips := [{ asset := { type := "html", src := hookSrc (escapeHtml p.hook) }
                             start := 0, length := 2, position := some "top"
                             offsetY := some (mkRat 1 10) }] }]
    else base
  let withCaptions :=
    if p.script != "" && jsTrim p.script != "" then
      let sentences := sentencesOf p.script
      let sentenceDuration : ℚ := max 2 (p.videoDuration / sentences.length)
      let captionClips := sentences.enum.map (fun pr =>
        ({ asset := { type := "html", src := captionSrc (escapeHtml (jsTrim pr.2)) }
           start := (pr.1 : ℚ) * sentenceDuration
           length := min sentenceDuration (p.videoDuration - (pr.1 : ℚ) * sentenceDuration)
           position := some "bottom", offsetY := some (mkRat (-3) 20) } : ShotstackClip))
      withHook ++ [{ clips := captionClips }]
    else withHook
  { tracks := withCaptions }

/-- All clips of a timeline, in track order. -/
def allClips (t : ShotstackTimeline) : List ShotstackClip :=
  t.tracks.flatMap (fun tr => tr.clips)

end Shotstack

section RetryLemmas

/-- The loop of `retryWithBackoff` invokes the wrapped function at most
once per remaining iteration. -/
theorem retryAux_calls_le {α : Type} (fn : ℕ → Except StageErr α) (sn : String)
    (ma : ℕ) : ∀ (fuel attempt : ℕ) (le : Option StageErr),
    (Joker.retryAux fn sn ma fuel attempt le).calls ≤ fuel := by
  intro fuel
  induction fuel with
  | zero => intro attempt le; simp [Joker.retryAux]
  | succ k ih =>
      intro attempt le
      simp only [Joker.retryAux]
      cases fn (attempt - 1) with
      | ok a => simp
      | error e =>
          by_cases h : k = 0
          · simp [h]
          · simp only [if_neg h]
            have := ih (attempt + 1) (some e)
            simpa using Nat.succ_le_succ this

/-- Each backoff delay recorded by the loop follows the
`min(1000 * 2^(attempt-1), 10000)` formula, where the sleep at index `k`
separates attempts `attempt + k` and `attempt + k + 1`. -/
theorem retryAux_sleeps_eq {α : Type} (fn : ℕ → Except StageErr α) (sn : String)
    (ma : ℕ) : ∀ (fuel attempt : ℕ) (le : Option StageErr), 1 ≤ attempt →
    ∀ (k d : ℕ),
    (Joker.retryAux fn sn ma fuel attempt le).sleeps.get? k = some d →
    d = min (1000 * 2 ^ (attempt - 1 + k)) 10000 := by
  intro fuel
  induction fuel with
  | zero => intro attempt le h1 k d hk; simp [Joker.retryAux] at hk
  | succ kf ih =>
      intro attempt le h1 k d hk
      simp only [Joker.retryAux] at hk
      cases hfn : fn (attempt - 1) with
      | ok a => rw [hfn] at hk; simp at hk
      | error e =>
          rw [hfn] at hk
          by_cases h : kf = 0
          · simp [h] at hk
          · simp only [if_neg h] at hk
            cases k with
            | zero =>
                rw [List.get?_cons_zero] at hk
                simp only [Option.some.injEq] at hk
                simpa using hk.symm
            | succ k' =>
                rw [List.get?_cons_succ] at hk
                have hrec := ih (attempt + 1) (some e) (by omega) k' d hk
                have harith : attempt - 1 + (k' + 1) = attempt + 1 - 1 + k' := by omega
                rw [harith]; exact hrec

/-- If the retry loop returns a value, some invocation of the wrapped
function produced it. -/
theorem retryAux_ok_exists {α : Type} (fn : ℕ → Except StageErr α) (sn : String)
    (ma : ℕ) : ∀ (fuel attempt : ℕ) (le : Option StageErr) (v : α),
    (Joker.retryAux fn sn ma fuel attempt le).result = .ok v →
    ∃ i, fn i = .ok v := by
  intro fuel
  induction fuel with
  | zero => intro attempt le v hv; simp [Joker.retryAux] at hv
  | succ k ih =>
      intro attempt le v hv
      simp only [Joker.retryAux] at hv
      cases hfn : fn (attempt - 1) with
      | ok a =>
          rw [hfn] at hv
          simp at hv
          exact ⟨attempt - 1, by rw [hfn, hv]⟩
      | error e =>
          rw [hfn] at hv
          by_cases h : k = 0
          · simp [h] at hv
          · simp only [if_neg h] at hv
            exact ih (attempt + 1) (some e) v hv

/-- A wrapped call that fails on every attempt is invoked once per
allowed attempt: the loop never consults the `retryable` flag. -/
theorem retryAux_const_error_calls {α : Type} (e : StageErr) (sn : String)
    (ma : ℕ) : ∀ (fuel attempt : ℕ) (le : Option StageErr), 1 ≤ fuel →
    (Joker.retryAux (fun _ => (.error e : Except StageErr α)) sn ma fuel attempt le).calls
      = fuel := by
  intro fuel
  induction fuel with
  | zero => omega
  | succ k ih =>
      intro attempt le _
      simp only [Joker.retryAux]
      by_cases h : k = 0
      · simp [h]
      · simp only [if_neg h]
        have := ih (attempt + 1) (some e) (by omega)
        simp [this]

end RetryLemmas

section CallCountLemmas

/-- The scraping stage adds at most `n` provider invocations, all on its
own counter. -/
theorem stageScraping_calls (beh : Behavior) (th : ℚ) (n : ℕ) (m : Joker.Machine) :
    ((Joker.stageScraping beh th n m).1).calls.scraping ≤ m.calls.scraping + n ∧
    ((Joker.stageScraping beh th n m).1).calls.vision = m.calls.vision ∧
    ((Joker.stageScraping beh th n m).1).calls.background = m.calls.background ∧
    ((Joker.stageScraping beh th n m).1).calls.content = m.calls.content ∧
    ((Joker.stageScraping beh th n m).1).calls.video = m.calls.video ∧
    ((Joker.stageScraping beh th n m).1).calls.assembly = m.calls.assembly := by
  have hb := retryAux_calls_le (fun i => beh .scraping i) "scraping" n n 1 none
  rcases hres : (Joker.retryWithBackoff (fun i => beh .scraping i) "scraping" n).result
    with f | v <;>
    simp_all [Joker.stageScraping, Joker.Machine.updateStepStatus, Joker.Machine.log,
      Joker.Machine.emit, Joker.Machine.addCost, Joker.Machine.addQualityGate,
      Joker.Machine.runRetry, Joker.CallCounts.add, StepName.str,
      Joker.retryWithBackoff] <;> omega

/-- The vision stage adds at most `n` provider invocations, on its own
counter. -/
theorem stageVision_calls (beh : Behavior) (th : ℚ) (n : ℕ) (m : Joker.Machine) :
    ((Joker.stageVision beh th n m).1).calls.vision ≤ m.calls.vision + n ∧
    ((Joker.stageVision beh th n m).1).calls.scraping = m.calls.scraping ∧
    ((Joker.stageVision beh th n m).1).calls.background = m.calls.background ∧
    ((Joker.stageVision beh th n m).1).calls.content = m.calls.content ∧
    ((Joker.stageVision beh th n m).1).calls.video = m.calls.video ∧
    ((Joker.stageVision beh th n m).1).calls.assembly = m.calls.assembly := by
  have hb := retryAux_calls_le (fun i => beh .vision i) "vision" n n 1 none
  rcases hres : (Joker.retryWithBackoff (fun i => beh .vision i) "vision" n).result
    with f | v <;>
    simp_all [Joker.stageVision, Joker.Machine.updateStepStatus, Joker.Machine.log,
      Joker.Machine.emit, Joker.Machine.addCost, Joker.Machine.addQualityGate,
      Joker.Machine.runRetry, Joker.CallCounts.add, StepName.str,
      Joker.retryWithBackoff] <;> omega

/-- The optional background stage adds at most 2 provider invocations:
its retry cap is the literal `2` at part_007 line 522. -/
theorem stageBackground_calls (beh : Behavior) (m : Joker.Machine) :
    ((Joker.stageBackground beh m)).calls.background ≤ m.calls.background + 2 ∧
    ((Joker.stageBackground beh m)).calls.scraping = m.calls.scraping ∧
    ((Joker.stageBackground beh m)).calls.vision = m.calls.vision ∧
    ((Joker.stageBackground beh m)).calls.content = m.calls.content ∧
    ((Joker.stageBackground beh m)).calls.video = m.calls.video ∧
    ((Joker.stageBackground beh m)).calls.assembly = m.calls.assembly := by
  have hb := retryAux_calls_le (fun i => beh .background i) "background" 2 2 1 none
  rcases hres : (Joker.retryWithBackoff (fun i => beh .background i) "background" 2).result
    with f | v <;>
    simp_all [Joker.stageBackground, Joker.Machine.updateStepStatus, Joker.Machine.log,
      Joker.Machine.emit, Joker.Machine.addCost, Joker.Machine.runRetry,
      Joker.CallCounts.add, StepName.str, Joker.retryWithBackoff] <;> omega

/-- The content stage adds at most `n` provider invocations, on its own
counter. -/
theorem stageContent_calls (beh : Behavior) (th : ℚ) (n : ℕ) (m : Joker.Machine) :
    ((Joker.stageContent beh th n m).1).calls.content ≤ m.calls.content + n ∧
    ((Joker.stageContent beh th n m).1).calls.scraping = m.calls.scraping ∧
    ((Joker.stageContent beh th n m).1).calls.vision = m.calls.vision ∧
    ((Joker.stageContent beh th n m).1).calls.background = m.calls.background ∧
    ((Joker.stageContent beh th n m).1).calls.video = m.calls.video ∧
    ((Joker.stageContent beh th n m).1).calls.assembly = m.calls.assembly := by
  have hb := retryAux_calls_le (fun i => beh .content i) "content" n n 1 none
  unfold Joker.stageContent
  rcases hgate : m.st.qualityGates.find? (fun g => g.step == StepName.vision) with _ | g
  · simp only [hgate]
    rcases hres : (Joker.retryWithBackoff (fun i => beh .content i) "content" n).result
      with f | v <;>
      simp_all [Joker.Machine.updateStepStatus, Joker.Machine.log,
        Joker.Machine.emit, Joker.Machine.addCost, Joker.Machine.addQualityGate,
        Joker.Machine.runRetry, Joker.CallCounts.add, StepName.str,
        Joker.retryWithBackoff] <;> omega
  · simp only [hgate]
    by_cases hp : g.passed <;>
      rcases hres : (Joker.retryWithBackoff (fun i => beh .content i) "content" n).result
        with f | v <;>
      simp_all [Joker.Machine.updateStepStatus, Joker.Machine.log,
        Joker.Machine.emit, Joker.Machine.addCost, Joker.Machine.addQualityGate,
        Joker.Machine.runRetry, Joker.CallCounts.add, StepName.str,
        Joker.retryWithBackoff] <;> omega

/-- The video stage adds at most `n` provider invocations, on its own
counter (zero when the angle check throws first). -/
theorem stageVideo_calls (beh : Behavior) (n a : ℕ) (m : Joker.Machine) :
    ((Joker.stageVideo beh n a m).1).calls.video ≤ m.calls.video + n ∧
    ((Joker.stageVideo beh n a m).1).calls.scraping = m.calls.scraping ∧
    ((Joker.stageVideo beh n a m).1).calls.vision = m.calls.vision ∧
    ((Joker.stageVideo beh n a m).1).calls.background = m.calls.background ∧
    ((Joker.stageVideo beh n a m).1).calls.content = m.calls.content ∧
    ((Joker.stageVideo beh n a m).1).calls.assembly = m.calls.assembly := by
  have hb := retryAux_calls_le (fun i => beh .video i) "video" n n 1 none
  by_cases ha : a = 0
  · simp_all [Joker.stageVideo, Joker.Machine.updateStepStatus, Joker.Machine.log,
      Joker.Machine.emit]
  · rcases hres : (Joker.retryWithBackoff (fun i => beh .video i) "video" n).result
      with f | v <;>
      simp_all [Joker.stageVideo, Joker.Machine.updateStepStatus, Joker.Machine.log,
        Joker.Machine.emit, Joker.Machine.addCost, Joker.Machine.runRetry,
        Joker.CallCounts.add, StepName.str, Joker.retryWithBackoff] <;> omega

/-- The assembly stage adds at most `n` provider invocations, on its own
counter. -/
theorem stageAssembly_calls (beh : Behavior) (n : ℕ) (m : Joker.Machine) :
    ((Joker.stageAssembly beh n m).1).calls.assembly ≤ m.calls.assembly + n ∧
    ((Joker.stageAssembly beh n m).1).calls.scraping = m.calls.scraping ∧
    ((Joker.stageAssembly beh n m).1).calls.vision = m.calls.vision ∧
    ((Joker.stageAssembly beh n m).1).calls.background = m.calls.background ∧
    ((Joker.stageAssembly beh n m).1).calls.content = m.calls.content ∧
    ((Joker.stageAssembly beh n m).1).calls.video = m.calls.video := by
  have hb := retryAux_calls_le (fun i => beh .assembly i) "assembly" n n 1 none
  rcases hres : (Joker.retryWithBackoff (fun i => beh .assembly i) "assembly" n).result
    with f | v <;>
    simp_all [Joker.stageAssembly, Joker.Machine.updateStepStatus, Joker.Machine.log,
      Joker.Machine.emit, Joker.Machine.addCost, Joker.Machine.runRetry,
      Joker.CallCounts.add, StepName.str, Joker.retryWithBackoff] <;> omega

end CallCountLemmas

section RunCallsBound

/-- Walking the whole `run` body: each mandatory stage contributes at
most `n` provider invocations to its own counter and the optional
background stage at most 2, no matter where the sequence stops. -/
theorem runBody_calls_bound (beh : Behavior) (th : ℚ) (n : ℕ) (ca : ℕ → Bool)
    (m : Joker.Machine) :
    ((Joker.runBody beh th n ca m).1).calls.scraping ≤ m.calls.scraping + n ∧
    ((Joker.runBody beh th n ca m).1).calls.vision ≤ m.calls.vision + n ∧
    ((Joker.runBody beh th n ca m).1).calls.background ≤ m.calls.background + 2 ∧
    ((Joker.runBody beh th n ca m).1).calls.content ≤ m.calls.content + n ∧
    ((Joker.runBody beh th n ca m).1).calls.video ≤ m.calls.video + n ∧
    ((Joker.runBody beh th n ca m).1).calls.assembly ≤ m.calls.assembly + n := by
  unfold Joker.runBody
  cases hca0 : Joker.checkCancelled ca 0 with
  | some e => simp only [hca0]; omega
  | none =>
  simp only [hca0]
  rcases hs1 : Joker.stageScraping beh th n m with ⟨m1, r1⟩
  have c1 := stageScraping_calls beh th n m
  rw [hs1] at c1
  dsimp only at c1
  cases r1 with
  | error e => dsimp only; omega
  | ok v1 =>
  cases hca1 : Joker.checkCancelled ca 1 with
  | some e => simp only [hca1]; omega
  | none =>
  simp only [hca1]
  rcases hs2 : Joker.stageVision beh th n m1 with ⟨m2, r2⟩
  have c2 := stageVision_calls beh th n m1
  rw [hs2] at c2
  dsimp only at c2
  cases r2 with
  | error e => dsimp only; omega
  | ok v2 =>
  cases hca2 : Joker.checkCancelled ca 2 with
  | some e => simp only [hca2]; omega
  | none =>
  simp only [hca2]
  have c3 := stageBackground_calls beh m2
  cases hca3 : Joker.checkCancelled ca 3 with
  | some e => simp only [hca3]; omega
  | none =>
  simp only [hca3]
  rcases hs4 : Joker.stageContent beh th n (Joker.stageBackground beh m2) with ⟨m4, r4⟩
  have c4 := stageContent_calls beh th n (Joker.stageBackground beh m2)
  rw [hs4] at c4
  dsimp only at c4
  cases r4 with
  | error e => dsimp only; omega
  | ok v4 =>
  cases hca4 : Joker.checkCancelled ca 4 with
  | some e => simp only [hca4]; omega
  | none =>
  simp only [hca4]
  cases hg : Joker.gateVideo th m4 with
  | some e => simp only [hg]; omega
  | none =>
  simp only [hg]
  rcases hs5 : Joker.stageVideo beh n v4.angles m4 with ⟨m5, r5⟩
  have c5 := stageVideo_calls beh n v4.angles m4
  rw [hs5] at c5
  dsimp only at c5
  cases r5 with
  | error e => dsimp only; omega
  | ok v5 =>
  cases hca5 : Joker.checkCancelled ca 5 with
  | some e => simp only [hca5]; omega
  | none =>
  simp only [hca5]
  rcases hs6 : Joker.stageAssembly beh n m5 with ⟨m6, r6⟩
  have c6 := stageAssembly_calls beh n m5
  rw [hs6] at c6
  dsimp only at c6
  cases r6 with
  | error e => dsimp only; omega
  | ok v6 =>
  dsimp only
  simp only [Joker.Machine.log, Joker.Machine.emit]
  omega

/-- The catch block of `run` does not invoke any provider: the final call
counts are those accumulated by the body. -/
theorem run_calls_eq (beh : Behavior) (th : ℚ) (n : ℕ) (ca : ℕ → Bool) :
    (Joker.run beh th n ca).1.calls =
      ((Joker.runBody beh th n ca
        (Joker.Machine.initial.log (some .scraping) .info "Starting pipeline")).1).calls := by
  unfold Joker.run
  rcases hb : Joker.runBody beh th n ca
      (Joker.Machine.initial.log (some .scraping) .info "Starting pipeline") with ⟨m1, r⟩
  cases r with
  | none => simp [hb]
  | some e =>
      simp only [hb]
      cases hcs : (m1.log m1.st.currentStep .error "Pipeline failed").st.currentStep with
      | some s =>
          simp [hcs, Joker.Machine.log, Joker.Machine.updateStepStatus, Joker.Machine.emit]
      | none => simp [hcs, Joker.Machine.log]

end RunCallsBound

/-- A provider that fails with a transient error on every invocation,
used to witness the retry bounds. -/
def behCaps : Behavior := fun _ _ => .error { retryable := true, message := "transient" }

/-- C4: for every stage call wrapped by the retry engine, the wrapped
function is invoked at most `maxAttempts` times and the backoff delay
recorded between attempt k and k+1 (0-based index k-1 in the sleeps
list) is `min(1000 * 2^(k-1), 10000)` ms; moreover in `Joker.run` every
mandatory stage is wrapped with the configured cap `n`
(`maxRetries ?? 3`) while the optional background stage uses the lower
cap 2, so its provider is invoked at most twice. -/
theorem c4_retry_bounds :
    (∀ {α : Type} (fn : ℕ → Except StageErr α) (stepName : String) (maxAttempts : ℕ),
      (Joker.retryWithBackoff fn stepName maxAttempts).calls ≤ maxAttempts ∧
      ∀ (k d : ℕ),
        (Joker.retryWithBackoff fn stepName maxAttempts).sleeps.get? k = some d →
        d = min (1000 * 2 ^ k) 10000) ∧
    ∀ (beh : Behavior) (th : ℚ) (n : ℕ) (ca : ℕ → Bool),
      (Joker.run beh th n ca).1.calls.background ≤ 2 ∧
      (Joker.run beh th n ca).1.calls.scraping ≤ n ∧
      (Joker.run beh th n ca).1.calls.vision ≤ n ∧
      (Joker.run beh th n ca).1.calls.content ≤ n ∧
      (Joker.run beh th n ca).1.calls.video ≤ n ∧
      (Joker.run beh th n ca).1.calls.assembly ≤ n := by
  constructor
  · intro α fn stepName maxAttempts
    refine ⟨retryAux_calls_le fn stepName maxAttempts maxAttempts 1 none, ?_⟩
    intro k d hk
    have h := retryAux_sleeps_eq fn stepName maxAttempts maxAttempts 1 none
      (le_refl 1) k d hk
    simpa using h
  · intro beh th n ca
    have hcalls := run_calls_eq beh th n ca
    have hb := runBody_calls_bound beh th n ca
      (Joker.Machine.initial.log (some .scraping) .info "Starting pipeline")
    have h0 : (Joker.Machine.initial.log (some .scraping) .info
        "Starting pipeline").calls = Joker.initialCalls := rfl
    rw [h0] at hb
    simp only [Joker.initialCalls] at hb
    rw [hcalls]
    omega

/-- C4 witness: the bounds evaluated on a provider that always fails
transiently, with the default caps. -/
theorem c4_retry_bounds_witness :
    (Joker.retryWithBackoff (fun i => behCaps .scraping i) "scraping" 3).calls ≤ 3 ∧
    (1000 : ℕ) = min (1000 * 2 ^ 0) 10000 ∧
    (2000 : ℕ) = min (1000 * 2 ^ 1) 10000 ∧
    (Joker.run behCaps (7/10) 3 (fun _ => false)).1.calls.background ≤ 2 ∧
    (Joker.run behCaps (7/10) 3 (fun _ => false)).1.calls.scraping ≤ 3 :=
  ⟨(c4_retry_bounds.1 (fun i => behCaps .scraping i) "scraping" 3).1,
   (c4_retry_bounds.1 (fun i => behCaps .scraping i) "scraping" 3).2 0 1000 (by decide),
   (c4_retry_bounds.1 (fun i => behCaps .scraping i) "scraping" 3).2 1 2000 (by decide),
   (c4_retry_bounds.2 behCaps (7/10) 3 (fun _ => false)).1,
   (c4_retry_bounds.2 behCaps (7/10) 3 (fun _ => false)).2.1⟩

/-- C5 counterexample: a stage call that fails with `retryable = false`
(missing credentials) is nevertheless re-invoked by the orchestrator
retry engine on all three attempts, with backoff sleeps of 1000 ms and
2000 ms in between — `retryWithBackoff` neither stops immediately nor
avoids sleeping, refuting the claim as stated. -/
theorem c5_counterexample :
    (Joker.retryWithBackoff
      (fun _ => (.error (StageErr.mk false
          "MISTRAL_API_KEY environment variable is not set") :
        Except StageErr StageResult)) "content" 3).calls = 3 ∧
    (Joker.retryWithBackoff
      (fun _ => (.error (StageErr.mk false
          "MISTRAL_API_KEY environment variable is not set") :
        Except StageErr StageResult)) "content" 3).sleeps = [1000, 2000] := by
  decide

/-- Helper: the vision client stops at once on a non-retryable API
status. -/
theorem callVisionAux_nonretryable (v : ℕ → Vision.CallOutcome)
    (status : ℕ) (msg : String) (fuel attempt : ℕ)
    (hstat : ¬(status = 429 ∨ status = 500 ∨ status = 503))
    (hv : v attempt = .apiError status msg) :
    Vision.callVisionAux v (fuel + 1) attempt =
      { result := .error (Vision.mapAPIError status msg), calls := 1, sleeps := [] } := by
  simp [Vision.callVisionAux, hv, hstat]

/-- C5 amended: the orchestrator retry engine `Joker.retryWithBackoff`
retries every failure regardless of its `retryable` flag (a wrapped call
that always fails is invoked once per allowed attempt); the
stop-immediately behaviour holds one level down, in the vision client:
`callVisionAPIWithRetry` invokes the API exactly once, sleeps no backoff
delay, and propagates the mapped error whenever the first failure is an
API error whose status is not 429, 500 or 503 (for example 400 malformed
input or 401 authentication failure). -/
theorem c5_nonretryable_amended :
    (∀ (e : StageErr) (stepName : String) (n : ℕ), 1 ≤ n →
      (Joker.retryWithBackoff (fun _ => (.error e : Except StageErr StageResult))
        stepName n).calls = n) ∧
    ∀ (v : ℕ → Vision.CallOutcome) (status : ℕ) (msg : String),
      ¬(status = 429 ∨ status = 500 ∨ status = 503) →
      v 0 = .apiError status msg →
      (Vision.callVisionAPIWithRetry v).calls = 1 ∧
      (Vision.callVisionAPIWithRetry v).sleeps = [] ∧
      (Vision.callVisionAPIWithRetry v).result = .error (Vision.mapAPIError status msg) := by
  constructor
  · intro e sn n hn
    exact retryAux_const_error_calls e sn n n 1 none hn
  · intro v status msg hstat hv0
    have h := callVisionAux_nonretryable v status msg 3 0 hstat hv0
    unfold Vision.callVisionAPIWithRetry
    rw [show Vision.MAX_RETRIES + 1 = 3 + 1 from rfl, h]
    exact ⟨rfl, rfl, rfl⟩

/-- C5 amended witness: both halves evaluated at concrete inputs —
the engine invokes a non-retryable failure twice when capped at 2, and
the vision client stops after one call on a 401. -/
theorem c5_amended_witness :
    (Joker.retryWithBackoff
      (fun _ => (.error (StageErr.mk false "bad key") :
        Except StageErr StageResult)) "vision" 2).calls = 2 ∧
    (Vision.callVisionAPIWithRetry (fun _ => .apiError 401 "bad")).calls = 1 ∧
    (Vision.callVisionAPIWithRetry (fun _ => .apiError 401 "bad")).sleeps = [] :=
  ⟨c5_nonretryable_amended.1 (StageErr.mk false "bad key") "vision" 2 (by decide),
   (c5_nonretryable_amended.2 (fun _ => .apiError 401 "bad") 401 "bad" (by decide) rfl).1,
   (c5_nonretryable_amended.2 (fun _ => .apiError 401 "bad") 401 "bad" (by decide) rfl).2.1⟩

/-- Providers that succeed with confidence above the threshold
everywhere except the content stage, whose result scores below it
(scenario B of the specification; the embedding uses the integer pair
0 against threshold 1 so that the run evaluates inside the kernel). -/
def behLowContent : Behavior := fun s _ =>
  .ok { cost := 1, confidence := if s = .content then 0 else 2, url := "u", angles := 3 }

/-- C1, evaluated at the failing input (content confidence 0.5,
threshold 0.7, every other provider fine): the run rejects with the
fatal error carrying the measured score and the threshold, the video
and assembly providers are never invoked, the content record is failed
and the later records stay pending — but the overall `status` field is
never assigned and remains `idle` instead of becoming `failed`, which is
the code bug this claim exposes (the API route in part_009 reads
`result.status` and the sibling orchestrator in part_008 does set a
terminal status in its catch). -/
theorem c1_hard_gate_aborts_before_video :
    (Joker.run behLowContent 1 3 (fun _ => false)).2 =
      .error (.contentQuality 0 1) ∧
    (Joker.run behLowContent 1 3 (fun _ => false)).1.calls.video = 0 ∧
    (Joker.run behLowContent 1 3 (fun _ => false)).1.calls.assembly = 0 ∧
    (Joker.run behLowContent 1 3 (fun _ => false)).1.st.steps.content.status = .failed ∧
    (Joker.run behLowContent 1 3 (fun _ => false)).1.st.steps.video.status = .pending ∧
    (Joker.run behLowContent 1 3 (fun _ => false)).1.st.steps.assembly.status = .pending ∧
    (Joker.run behLowContent 1 3 (fun _ => false)).1.st.status = .idle := by
  decide

/-- Providers whose scraping call always fails (a transient transport
error on each of the three attempts). -/
def behFailScrape : Behavior := fun _ _ => .error { retryable := true, message := "boom" }

/-- C3 counterexample: in the final observable snapshot of a run whose
scraping stage exhausts its retries, the scraping record has status
`failed` while `completedAt` is null and `progress` is 0, refuting both
halves of the claimed invariant — `Joker.updateStepStatus` drops the
timestamp fields and the catch block preserves the prior progress. -/
theorem c3_counterexample :
    (Joker.run behFailScrape 1 3 (fun _ => false)).1.st.steps.scraping.status = .failed ∧
    (Joker.run behFailScrape 1 3 (fun _ => false)).1.st.steps.scraping.completedAt = none ∧
    ¬((Joker.run behFailScrape 1 3 (fun _ => false)).1.st.steps.scraping.progress = 100) ∧
    (Joker.run behFailScrape 1 3 (fun _ => false)).1.snapshots.getLast? =
      some (Joker.run behFailScrape 1 3 (fun _ => false)).1.st := by
  decide

/-- Providers that always succeed with confidence above the threshold. -/
def behAllGood : Behavior := fun _ _ =>
  .ok { cost := 1, confidence := 2, url := "u", angles := 3 }

/-- The cancellation flag observed as set from the stage boundary before
the video stage onwards: `cancel()` was called while content ran. -/
def caFrom4 : ℕ → Bool := fun i => decide (4 ≤ i)

/-- C7 counterexample: with `cancel()` invoked while `content` runs, the
orchestrator does refuse to start `video`, but the overall status never
becomes `cancelled`: the status field stays `idle` in the final state
and in every emitted snapshot (the part_007 state type has no cancelled
value at all), and the stage that was running when the flag was checked
is re-marked `failed` with the `Pipeline cancelled` error. -/
theorem c7_counterexample :
    (Joker.run behAllGood 1 3 caFrom4).1.st.status = .idle ∧
    ((Joker.run behAllGood 1 3 caFrom4).1.snapshots.all
      (fun s => s.status == .idle)) = true ∧
    (Joker.run behAllGood 1 3 caFrom4).1.st.steps.content.status = .failed ∧
    (Joker.run behAllGood 1 3 caFrom4).1.st.steps.content.error = some .cancelled := by
  decide

section CostLedger

/-- The cost-ledger invariant of the claim: the derived `total` equals
the sum of the six per-stage amounts — each stage always present in the
record, a cost-free stage contributing its initial 0 — and every
per-stage amount is non-negative. -/
def CostsOk (c : Joker.CostBreakdown) : Prop :=
  c.total = c.scraping + c.vision + c.background + c.content + c.video + c.assembly ∧
  0 ≤ c.scraping ∧ 0 ≤ c.vision ∧ 0 ≤ c.background ∧
  0 ≤ c.content ∧ 0 ≤ c.video ∧ 0 ≤ c.assembly

instance costsOkDecidable (c : Joker.CostBreakdown) : Decidable (CostsOk c) := by
  unfold CostsOk; infer_instance

/-- The run-wide invariant: the live state and every snapshot handed to
the observer satisfy the ledger invariant. -/
def MInv (m : Joker.Machine) : Prop :=
  CostsOk m.st.costs ∧ ∀ s ∈ m.snapshots, CostsOk s.costs

theorem costsOk_addTo (c : Joker.CostBreakdown) (s : StepName) (a : ℚ)
    (h : CostsOk c) (ha : 0 ≤ a) : CostsOk (c.addTo s a) := by
  obtain ⟨ht, h1, h2, h3, h4, h5, h6⟩ := h
  cases s <;>
    exact ⟨by simp [Joker.CostBreakdown.addTo]; linarith,
      by simp [Joker.CostBreakdown.addTo]; linarith,
      by simp [Joker.CostBreakdown.addTo]; linarith,
      by simp [Joker.CostBreakdown.addTo]; linarith,
      by simp [Joker.CostBreakdown.addTo]; linarith,
      by simp [Joker.CostBreakdown.addTo]; linarith,
      by simp [Joker.CostBreakdown.addTo]; linarith⟩

theorem minv_log (m : Joker.Machine) (st : Option StepName) (lv : LogLevel)
    (ms : String) (h : MInv m) : MInv (m.log st lv ms) :=
  ⟨h.1, h.2⟩

theorem minv_emit (m : Joker.Machine) (h : MInv m) : MInv m.emit := by
  obtain ⟨h1, h2⟩ := h
  refine ⟨h1, ?_⟩
  intro s hs
  simp only [Joker.Machine.emit, List.mem_append, List.mem_singleton] at hs
  rcases hs with hs | rfl
  · exact h2 s hs
  · exact h1

theorem minv_updateStep (m : Joker.Machine) (s : StepName) (st : StepStatus)
    (pr : ℚ) (er : Option Joker.RunError) (h : MInv m) :
    MInv (m.updateStepStatus s st pr er) :=
  minv_emit _ ⟨h.1, h.2⟩

theorem minv_addCost (m : Joker.Machine) (s : StepName) (a : ℚ)
    (h : MInv m) (ha : 0 ≤ a) : MInv (m.addCost s a) :=
  minv_emit _ ⟨costsOk_addTo m.st.costs s a h.1 ha, h.2⟩

theorem minv_addGate (m : Joker.Machine) (g : Joker.QualityGate)
    (h : MInv m) : MInv (m.addQualityGate g) :=
  minv_emit _ ⟨h.1, h.2⟩

theorem minv_runRetry (m : Joker.Machine) (beh : Behavior) (s : StepName)
    (k : ℕ) (h : MInv m) : MInv (m.runRetry beh s k).1 :=
  ⟨h.1, h.2⟩

theorem minv_stageScraping (beh : Behavior) (th : ℚ) (n : ℕ) (m : Joker.Machine)
    (hcost : ∀ i v, beh .scraping i = .ok v → 0 ≤ v.cost)
    (h : MInv m) : MInv (Joker.stageScraping beh th n m).1 := by
  unfold Joker.stageScraping
  have h2 := minv_log _ (some .scraping) .info "Scraping product data..."
    (minv_updateStep m .scraping .running 0 none h)
  rcases hres : (Joker.retryWithBackoff (fun i => beh .scraping i) "scraping" n).result
    with f | v
  · simp only [Joker.Machine.runRetry, StepName.str, hres]
    exact ⟨h2.1, h2.2⟩
  · simp only [Joker.Machine.runRetry, StepName.str, hres]
    obtain ⟨i, hi⟩ := retryAux_ok_exists (fun i => beh .scraping i) "scraping" n n 1 none v hres
    have hv : 0 ≤ v.cost := hcost i v hi
    exact minv_log _ _ _ _ (minv_updateStep _ _ _ _ _
      (minv_addGate _ _ (minv_addCost _ _ _ ⟨h2.1, h2.2⟩ hv)))

theorem minv_stageVision (beh : Behavior) (th : ℚ) (n : ℕ) (m : Joker.Machine)
    (hcost : ∀ i v, beh .vision i = .ok v → 0 ≤ v.cost)
    (h : MInv m) : MInv (Joker.stageVision beh th n m).1 := by
  unfold Joker.stageVision
  have h2 := minv_log _ (some .vision) .info "Analyzing product images..."
    (minv_updateStep m .vision .running 0 none h)
  rcases hres : (Joker.retryWithBackoff (fun i => beh .vision i) "vision" n).result
    with f | v
  · simp only [Joker.Machine.runRetry, StepName.str, hres]
    exact ⟨h2.1, h2.2⟩
  · simp only [Joker.Machine.runRetry, StepName.str, hres]
    obtain ⟨i, hi⟩ := retryAux_ok_exists (fun i => beh .vision i) "vision" n n 1 none v hres
    have hv : 0 ≤ v.cost := hcost i v hi
    exact minv_log _ _ _ _ (minv_updateStep _ _ _ _ _
      (minv_addGate _ _ (minv_addCost _ _ _ ⟨h2.1, h2.2⟩ hv)))

theorem minv_stageBackground (beh : Behavior) (m : Joker.Machine)
    (hcost : ∀ i v, beh .background i = .ok v → 0 ≤ v.cost)
    (h : MInv m) : MInv (Joker.stageBackground beh m) := by
  unfold Joker.stageBackground
  have h2 := minv_log _ (some .background) .info "Removing background from primary image..."
    (minv_updateStep m .background .running 0 none h)
  rcases hres : (Joker.retryWithBackoff (fun i => beh .background i) "background" 2).result
    with f | v
  · simp only [Joker.Machine.runRetry, StepName.str, hres]
    exact minv_updateStep _ _ _ _ _ (minv_log _ _ _ _ ⟨h2.1, h2.2⟩)
  · simp only [Joker.Machine.runRetry, StepName.str, hres]
    obtain ⟨i, hi⟩ := retryAux_ok_exists (fun i => beh .background i) "background" 2 2 1 none v hres
    have hv : 0 ≤ v.cost := hcost i v hi
    exact minv_log _ _ _ _ (minv_updateStep _ _ _ _ _
      (minv_addCost _ _ _ ⟨h2.1, h2.2⟩ hv))

theorem minv_stageContent (beh : Behavior) (th : ℚ) (n : ℕ) (m : Joker.Machine)
    (hcost : ∀ i v, beh .content i = .ok v → 0 ≤ v.cost)
    (h : MInv m) : MInv (Joker.stageContent beh th n m).1 := by
  unfold Joker.stageContent
  rcases hgate : m.st.qualityGates.find? (fun g => g.step == StepName.vision) with _ | g <;>
    simp only [hgate]
  · have h2 := minv_log _ (some .content) .info "Generating marketing angles..."
      (minv_updateStep m .content .running 0 none h)
    rcases hres : (Joker.retryWithBackoff (fun i => beh .content i) "content" n).result
      with f | v
    · simp only [Joker.Machine.runRetry, StepName.str, hres]
      exact ⟨h2.1, h2.2⟩
    · simp only [Joker.Machine.runRetry, StepName.str, hres]
      obtain ⟨i, hi⟩ := retryAux_ok_exists (fun i => beh .content i) "content" n n 1 none v hres
      have hv : 0 ≤ v.cost := hcost i v hi
      exact minv_log _ _ _ _ (minv_updateStep _ _ _ _ _
        (minv_addGate _ _ (minv_addCost _ _ _ ⟨h2.1, h2.2⟩ hv)))
  · by_cases hp : g.passed = true <;> simp only [hp, if_true, if_false] <;>
    · first
      | (have h' : MInv m := h
         have h2 := minv_log _ (some .content) .info "Generating marketing angles..."
           (minv_updateStep m .content .running 0 none h')
         rcases hres : (Joker.retryWithBackoff (fun i => beh .content i) "content" n).result
           with f | v
         · simp only [Joker.Machine.runRetry, StepName.str, hres]
           exact ⟨h2.1, h2.2⟩
         · simp only [Joker.Machine.runRetry, StepName.str, hres]
           obtain ⟨i, hi⟩ := retryAux_ok_exists (fun i => beh .content i) "content" n n 1 none v hres
           have hv : 0 ≤ v.cost := hcost i v hi
           exact minv_log _ _ _ _ (minv_updateStep _ _ _ _ _
             (minv_addGate _ _ (minv_addCost _ _ _ ⟨h2.1, h2.2⟩ hv))))
      | (have h' := minv_log m (some .content) .warn
           "Vision quality below threshold, but continuing..." h
         have h2 := minv_log _ (some .content) .info "Generating marketing angles..."
           (minv_updateStep _ .content .running 0 none h')
         rcases hres : (Joker.retryWithBackoff (fun i => beh .content i) "content" n).result
           with f | v
         · simp only [Joker.Machine.runRetry, StepName.str, hres]
           exact ⟨h2.1, h2.2⟩
         · simp only [Joker.Machine.runRetry, StepName.str, hres]
           obtain ⟨i, hi⟩ := retryAux_ok_exists (fun i => beh .content i) "content" n n 1 none v hres
           have hv : 0 ≤ v.cost := hcost i v hi
           exact minv_log _ _ _ _ (minv_updateStep _ _ _ _ _
             (minv_addGate _ _ (minv_addCost _ _ _ ⟨h2.1, h2.2⟩ hv))))

theorem minv_stageVideo (beh : Behavior) (n a : ℕ) (m : Joker.Machine)
    (hcost : ∀ i v, beh .video i = .ok v → 0 ≤ v.cost)
    (h : MInv m) : MInv (Joker.stageVideo beh n a m).1 := by
  unfold Joker.stageVideo
  have h2 := minv_log _ (some .video) .info "Generating video content..."
    (minv_updateStep m .video .running 0 none h)
  by_cases ha : a = 0
  · simp only [ha, if_true]
    exact ⟨h2.1, h2.2⟩
  · simp only [ha, if_false]
    rcases hres : (Joker.retryWithBackoff (fun i => beh .video i) "video" n).result
      with f | v
    · simp only [Joker.Machine.runRetry, StepName.str, hres]
      exact ⟨h2.1, h2.2⟩
    · simp only [Joker.Machine.runRetry, StepName.str, hres]
      obtain ⟨i, hi⟩ := retryAux_ok_exists (fun i => beh .video i) "video" n n 1 none v hres
      have hv : 0 ≤ v.cost := hcost i v hi
      exact minv_log _ _ _ _ (minv_updateStep _ _ _ _ _
        (minv_addCost _ _ _ ⟨h2.1, h2.2⟩ hv))

theorem minv_stageAssembly (beh : Behavior) (n : ℕ) (m : Joker.Machine)
    (hcost : ∀ i v, beh .assembly i = .ok v → 0 ≤ v.cost)
    (h : MInv m) : MInv (Joker.stageAssembly beh n m).1 := by
  unfold Joker.stageAssembly
  have h2 := minv_log _ (some .assembly) .info "Assembling final video..."
    (minv_updateStep m .assembly .running 0 none h)
  rcases hres : (Joker.retryWithBackoff (fun i => beh .assembly i) "assembly" n).result
    with f | v
  · simp only [Joker.Machine.runRetry, StepName.str, hres]
    exact ⟨h2.1, h2.2⟩
  · simp only [Joker.Machine.runRetry, StepName.str, hres]
    obtain ⟨i, hi⟩ := retryAux_ok_exists (fun i => beh .assembly i) "assembly" n n 1 none v hres
    have hv : 0 ≤ v.cost := hcost i v hi
    exact minv_log _ _ _ _ (minv_updateStep _ _ _ _ _
      (minv_addCost _ _ _ ⟨h2.1, h2.2⟩ hv))

end CostLedger

section CostLedgerRun

/-- The body of `run` preserves the ledger invariant through every stage
and boundary check, provided the providers report non-negative costs. -/
theorem minv_runBody (beh : Behavior) (th : ℚ) (n : ℕ) (ca : ℕ → Bool)
    (m : Joker.Machine)
    (hcost : ∀ s i v, beh s i = .ok v → 0 ≤ v.cost)
    (h : MInv m) : MInv (Joker.runBody beh th n ca m).1 := by
  unfold Joker.runBody
  cases hca0 : Joker.checkCancelled ca 0 with
  | some e => exact h
  | none =>
  rcases hs1 : Joker.stageScraping beh th n m with ⟨m1, r1⟩
  try rw [hs1]
  have i1 := minv_stageScraping beh th n m (fun i v hv => hcost .scraping i v hv) h
  rw [hs1] at i1
  dsimp only at i1
  cases r1 with
  | error e => dsimp only; exact i1
  | ok v1 =>
  cases hca1 : Joker.checkCancelled ca 1 with
  | some e => exact i1
  | none =>
  try dsimp only
  rcases hs2 : Joker.stageVision beh th n m1 with ⟨m2, r2⟩
  try rw [hs2]
  have i2 := minv_stageVision beh th n m1 (fun i v hv => hcost .vision i v hv) i1
  rw [hs2] at i2
  dsimp only at i2
  cases r2 with
  | error e => dsimp only; exact i2
  | ok v2 =>
  cases hca2 : Joker.checkCancelled ca 2 with
  | some e => exact i2
  | none =>
  try dsimp only
  have i3 := minv_stageBackground beh m2 (fun i v hv => hcost .background i v hv) i2
  cases hca3 : Joker.checkCancelled ca 3 with
  | some e => exact i3
  | none =>
  try dsimp only
  rcases hs4 : Joker.stageContent beh th n (Joker.stageBackground beh m2) with ⟨m4, r4⟩
  try rw [hs4]
  have i4 := minv_stageContent beh th n (Joker.stageBackground beh m2)
    (fun i v hv => hcost .content i v hv) i3
  rw [hs4] at i4
  dsimp only at i4
  cases r4 with
  | error e => dsimp only; exact i4
  | ok v4 =>
  cases hca4 : Joker.checkCancelled ca 4 with
  | some e => exact i4
  | none =>
  try dsimp only
  cases hg : Joker.gateVideo th m4 with
  | some e => exact i4
  | none =>
  try dsimp only
  rcases hs5 : Joker.stageVideo beh n v4.angles m4 with ⟨m5, r5⟩
  try rw [hs5]
  have i5 := minv_stageVideo beh n v4.angles m4 (fun i v hv => hcost .video i v hv) i4
  rw [hs5] at i5
  dsimp only at i5
  cases r5 with
  | error e => dsimp only; exact i5
  | ok v5 =>
  cases hca5 : Joker.checkCancelled ca 5 with
  | some e => exact i5
  | none =>
  try dsimp only
  rcases hs6 : Joker.stageAssembly beh n m5 with ⟨m6, r6⟩
  try rw [hs6]
  have i6 := minv_stageAssembly beh n m5 (fun i v hv => hcost .assembly i v hv) i5
  rw [hs6] at i6
  dsimp only at i6
  cases r6 with
  | error e => dsimp only; exact i6
  | ok v6 =>
  try dsimp only
  exact minv_emit _ (minv_log _ _ _ _ i6)

/-- Every machine reachable from `run` satisfies the ledger invariant:
the catch block mutates no cost. -/
theorem minv_run (beh : Behavior) (th : ℚ) (n : ℕ) (ca : ℕ → Bool)
    (hcost : ∀ s i v, beh s i = .ok v → 0 ≤ v.cost) :
    MInv (Joker.run beh th n ca).1 := by
  have h0 : MInv (Joker.Machine.initial.log (some .scraping) .info "Starting pipeline") := by
    refine ⟨?_, ?_⟩
    · exact ⟨by norm_num [Joker.Machine.initial, Joker.initialState, Joker.Machine.log],
        by norm_num [Joker.Machine.initial, Joker.initialState, Joker.Machine.log],
        by norm_num [Joker.Machine.initial, Joker.initialState, Joker.Machine.log],
        by norm_num [Joker.Machine.initial, Joker.initialState, Joker.Machine.log],
        by norm_num [Joker.Machine.initial, Joker.initialState, Joker.Machine.log],
        by norm_num [Joker.Machine.initial, Joker.initialState, Joker.Machine.log],
        by norm_num [Joker.Machine.initial, Joker.initialState, Joker.Machine.log]⟩
    · intro s hs
      simp [Joker.Machine.initial, Joker.Machine.log] at hs
  have hb := minv_runBody beh th n ca _ hcost h0
  unfold Joker.run
  try dsimp only
  rcases hr : Joker.runBody beh th n ca
      (Joker.Machine.initial.log (some .scraping) .info "Starting pipeline") with ⟨m1, r⟩
  try rw [hr]
  rw [hr] at hb
  dsimp only at hb
  cases r with
  | none => try dsimp only
            exact hb
  | some e =>
      try dsimp only
      cases hcs : (m1.log m1.st.currentStep .error "Pipeline failed").st.currentStep with
      | some s =>
          try dsimp only
          have h3 := minv_updateStep _ s .failed
            (((m1.log m1.st.currentStep .error "Pipeline failed").st.steps.get s).progress)
            (some e) (minv_log m1 m1.st.currentStep .error "Pipeline failed" hb)
          exact minv_emit _ ⟨h3.1, h3.2⟩
      | none =>
          try dsimp only
          exact minv_log _ _ _ _ hb

end CostLedgerRun

/-- C2: at every observable snapshot of a run — every state handed to the
`onStateChange` observer, and the final state — the ledger total equals
the sum of the six per-stage amounts, each amount is non-negative, and
each of the six stages is present in the record (a stage with no cost
holds 0 rather than being omitted: the record type carries all six
keys).  Providers are assumed to report non-negative costs, as the Stage
Port contract requires.  The types.ts `updateCosts` helper
unconditionally re-establishes the same shape of invariant by
recomputing `total` as the sum of its six provider keys. -/
theorem c2_cost_ledger_invariant (beh : Behavior) (th : ℚ) (n : ℕ) (ca : ℕ → Bool)
    (hcost : ∀ s i v, beh s i = .ok v → 0 ≤ v.cost) :
    CostsOk (Joker.run beh th n ca).1.st.costs ∧
    (∀ snap ∈ (Joker.run beh th n ca).1.snapshots, CostsOk snap.costs) ∧
    ∀ (c : Types.CostBreakdown) (u : Types.CostUpdates),
      (Types.updateCosts c u).total =
        (Types.updateCosts c u).apify + (Types.updateCosts c u).openai +
        (Types.updateCosts c u).mistral + (Types.updateCosts c u).vidgo +
        (Types.updateCosts c u).shotstack + (Types.updateCosts c u).removebg := by
  refine ⟨(minv_run beh th n ca hcost).1, (minv_run beh th n ca hcost).2, ?_⟩
  intro c u
  simp [Types.updateCosts]

/-- C2 witness: the invariant evaluated on a run in which every provider
succeeds with cost 1. -/
theorem c2_cost_ledger_invariant_witness :
    CostsOk (Joker.run behAllGood 1 3 (fun _ => false)).1.st.costs ∧
    (Types.updateCosts
        { apify := 1, openai := 2, mistral := 3, vidgo := 4, shotstack := 5,
          removebg := 6, total := 0 } { }).total =
      (Types.updateCosts
        { apify := 1, openai := 2, mistral := 3, vidgo := 4, shotstack := 5,
          removebg := 6, total := 0 } { }).apify +
      (Types.updateCosts
        { apify := 1, openai := 2, mistral := 3, vidgo := 4, shotstack := 5,
          removebg := 6, total := 0 } { }).openai +
      (Types.updateCosts
        { apify := 1, openai := 2, mistral := 3, vidgo := 4, shotstack := 5,
          removebg := 6, total := 0 } { }).mistral +
      (Types.updateCosts
        { apify := 1, openai := 2, mistral := 3, vidgo := 4, shotstack := 5,
          removebg := 6, total := 0 } { }).vidgo +
      (Types.updateCosts
        { apify := 1, openai := 2, mistral := 3, vidgo := 4, shotstack := 5,
          removebg := 6, total := 0 } { }).shotstack +
      (Types.updateCosts
        { apify := 1, openai := 2, mistral := 3, vidgo := 4, shotstack := 5,
          removebg := 6, total := 0 } { }).removebg :=
  ⟨(c2_cost_ledger_invariant behAllGood 1 3 (fun _ => false)
      (by intro s i v hv; injection hv with hv; rw [← hv]; norm_num)).1,
   (c2_cost_ledger_invariant behAllGood 1 3 (fun _ => false)
      (by intro s i v hv; injection hv with hv; rw [← hv]; norm_num)).2.2 _ _⟩

/-- A pristine step record for the types.ts helper. -/
def tstepPending : Types.PipelineStepStatus :=
  { status := .pending, progress := 0, startedAt := none, completedAt := none,
    error := none }

/-- A pristine state for the types.ts helper. -/
def tstateInitial : Types.PipelineState :=
  { currentStep := none
    steps :=
      { scraping := tstepPending, vision := tstepPending, background := tstepPending,
        content := tstepPending, video := tstepPending, assembly := tstepPending } }

theorem tsteps_get_set (s : Types.PipelineSteps) (step : StepName)
    (r : Types.PipelineStepStatus) : (s.set step r).get step = r := by
  cases step <;> rfl

/-- C3 amended: the pure helper `updateStepStatus` of types.ts does set
`completedAt` and force `progress` to 100 whenever it transitions a step
to success or failed.  The full claimed invariant — `completedAt`
non-null iff the status is terminal, and `progress = 100` at every
observable snapshot — fails on the orchestrator (see the
counterexample): `Joker.updateStepStatus` drops the timestamp fields
entirely and the catch block preserves the prior progress, so a failed
stage can show `completedAt = null` and `progress < 100`; the helper
also never clears a stale `completedAt` on transitions out of a
terminal status. -/
theorem c3_terminal_marks_completed_amended (state : Types.PipelineState)
    (step : StepName) (status : StepStatus) (progress : ℚ)
    (error : Option String) (now : ℕ)
    (h : status = .success ∨ status = .failed) :
    ((Types.updateStepStatus state step status progress error now).steps.get step).completedAt
      = some now ∧
    ((Types.updateStepStatus state step status progress error now).steps.get step).progress
      = 100 := by
  unfold Types.updateStepStatus
  simp [tsteps_get_set, if_pos h]

/-- C3 amended witness: the helper evaluated on a concrete failing
transition. -/
theorem c3_terminal_marks_completed_amended_witness :
    ((Types.updateStepStatus tstateInitial .content .failed 40 (some "boom") 5).steps.get
      .content).completedAt = some 5 ∧
    ((Types.updateStepStatus tstateInitial .content .failed 40 (some "boom") 5).steps.get
      .content).progress = 100 :=
  c3_terminal_marks_completed_amended tstateInitial .content .failed 40 (some "boom") 5
    (Or.inr rfl)

/-- C6: in any run whose background provider fails every allowed attempt
while every mandatory provider succeeds on its first attempt (content
passing the hard gate and producing at least one angle), the run
resolves successfully: the background record is marked with the
orchestrator success marker `completed`, a warning tagged with the
background stage is logged, the background stage contributes 0 to the
ledger, the later video and assembly providers are still invoked and
their stages complete, and no emitted snapshot ever carries a `failed`
overall status (the status field stays `idle` throughout). -/
theorem c6_optional_background_degrades (beh : Behavior) (th : ℚ)
    (v1 v2 vc vv va : StageResult) (e0 e1 : StageErr)
    (h1 : beh .scraping 0 = .ok v1)
    (h2 : beh .vision 0 = .ok v2)
    (hb0 : beh .background 0 = .error e0)
    (hb1 : beh .background 1 = .error e1)
    (hc : beh .content 0 = .ok vc)
    (hcq : vc.confidence ≥ th)
    (hang : vc.angles ≠ 0)
    (hv : beh .video 0 = .ok vv)
    (ha : beh .assembly 0 = .ok va) :
    (Joker.run beh th 3 (fun _ => false)).2 = .ok (Joker.run beh th 3 (fun _ => false)).1.st ∧
    (Joker.run beh th 3 (fun _ => false)).1.st.steps.background.status = .completed ∧
    (Joker.run beh th 3 (fun _ => false)).1.st.costs.background = 0 ∧
    ((Joker.run beh th 3 (fun _ => false)).1.loggerLogs.any
      (fun l => l.step == some StepName.background && l.level == LogLevel.warn)) = true ∧
    (Joker.run beh th 3 (fun _ => false)).1.calls.video = 1 ∧
    (Joker.run beh th 3 (fun _ => false)).1.calls.assembly = 1 ∧
    (Joker.run beh th 3 (fun _ => false)).1.st.steps.assembly.status = .completed ∧
    ((Joker.run beh th 3 (fun _ => false)).1.snapshots.all
      (fun s => s.status == RunStatus.idle)) = true := by
  by_cases hv2 : v2.confidence ≥ th <;>
  simp [Joker.run, Joker.runBody, Joker.stageScraping, Joker.stageVision,
    Joker.stageBackground, Joker.stageContent, Joker.gateVideo, Joker.stageVideo,
    Joker.stageAssembly, Joker.Machine.runRetry, Joker.retryWithBackoff, Joker.retryAux,
    Joker.Machine.updateStepStatus, Joker.Machine.addCost, Joker.Machine.addQualityGate,
    Joker.Machine.log, Joker.Machine.emit, Joker.checkCancelled,
    Joker.Machine.initial, Joker.initialState, Joker.initialStepRecord, Joker.initialCalls,
    Joker.CostBreakdown.addTo, Joker.CallCounts.add, Joker.PipelineSteps.set,
    Joker.PipelineSteps.get, StepName.str,
    h1, h2, hb0, hb1, hc, hcq, hang, hv, ha, hv2]

/-- Providers that always fail the background stage and succeed
everywhere else. -/
def behBgFail : Behavior := fun s _ =>
  if s = .background then .error { retryable := true, message := "bg down" }
  else .ok { cost := 1, confidence := 2, url := "u", angles := 3 }

/-- C6 witness: the degradation property evaluated on a concrete run. -/
theorem c6_optional_background_degrades_witness :
    (Joker.run behBgFail 1 3 (fun _ => false)).2 =
      .ok (Joker.run behBgFail 1 3 (fun _ => false)).1.st ∧
    (Joker.run behBgFail 1 3 (fun _ => false)).1.st.steps.background.status = .completed ∧
    (Joker.run behBgFail 1 3 (fun _ => false)).1.st.costs.background = 0 ∧
    ((Joker.run behBgFail 1 3 (fun _ => false)).1.loggerLogs.any
      (fun l => l.step == some StepName.background && l.level == LogLevel.warn)) = true ∧
    (Joker.run behBgFail 1 3 (fun _ => false)).1.calls.video = 1 ∧
    (Joker.run behBgFail 1 3 (fun _ => false)).1.calls.assembly = 1 ∧
    (Joker.run behBgFail 1 3 (fun _ => false)).1.st.steps.assembly.status = .completed ∧
    ((Joker.run behBgFail 1 3 (fun _ => false)).1.snapshots.all
      (fun s => s.status == RunStatus.idle)) = true :=
  c6_optional_background_degrades behBgFail 1
    { cost := 1, confidence := 2, url := "u", angles := 3 }
    { cost := 1, confidence := 2, url := "u", angles := 3 }
    { cost := 1, confidence := 2, url := "u", angles := 3 }
    { cost := 1, confidence := 2, url := "u", angles := 3 }
    { cost := 1, confidence := 2, url := "u", angles := 3 }
    { retryable := true, message := "bg down" }
    { retryable := true, message := "bg down" }
    rfl rfl rfl rfl rfl (by decide) (by decide) rfl rfl

/-- C7 amended: when `cancel()` is observed at the stage boundary before
video (the flag was set while content ran), the orchestrator refuses to
start the video stage — neither the video nor the assembly provider is
ever invoked and both records stay `pending` — and the run rejects with
the `Pipeline cancelled` error.  However the overall status field never
becomes `cancelled`: the part_007 state type has no such value, `run`
never assigns the field (every snapshot and the final state carry
`idle`), and the catch block re-marks the stage that had been running as
`failed` with the cancellation error. -/
theorem c7_cancel_refuses_next_stage_amended (beh : Behavior) (th : ℚ)
    (v1 v2 vb vc : StageResult) (ca : ℕ → Bool)
    (h1 : beh .scraping 0 = .ok v1)
    (h2 : beh .vision 0 = .ok v2)
    (hb : beh .background 0 = .ok vb)
    (hc : beh .content 0 = .ok vc)
    (hca0 : ca 0 = false) (hca1 : ca 1 = false) (hca2 : ca 2 = false)
    (hca3 : ca 3 = false) (hca4 : ca 4 = true) :
    (Joker.run beh th 3 ca).2 = .error .cancelled ∧
    (Joker.run beh th 3 ca).1.calls.video = 0 ∧
    (Joker.run beh th 3 ca).1.calls.assembly = 0 ∧
    (Joker.run beh th 3 ca).1.st.steps.video.status = .pending ∧
    (Joker.run beh th 3 ca).1.st.steps.assembly.status = .pending ∧
    (Joker.run beh th 3 ca).1.st.steps.content.status = .failed ∧
    (Joker.run beh th 3 ca).1.st.steps.content.error = some .cancelled ∧
    ((Joker.run beh th 3 ca).1.snapshots.all
      (fun s => s.status == RunStatus.idle)) = true := by
  by_cases hv2 : v2.confidence ≥ th <;>
  simp [Joker.run, Joker.runBody, Joker.stageScraping, Joker.stageVision,
    Joker.stageBackground, Joker.stageContent, Joker.gateVideo, Joker.stageVideo,
    Joker.stageAssembly, Joker.Machine.runRetry, Joker.retryWithBackoff, Joker.retryAux,
    Joker.Machine.updateStepStatus, Joker.Machine.addCost, Joker.Machine.addQualityGate,
    Joker.Machine.log, Joker.Machine.emit, Joker.checkCancelled,
    Joker.Machine.initial, Joker.initialState, Joker.initialStepRecord, Joker.initialCalls,
    Joker.CostBreakdown.addTo, Joker.CallCounts.add, Joker.PipelineSteps.set,
    Joker.PipelineSteps.get, StepName.str,
    h1, h2, hb, hc, hca0, hca1, hca2, hca3, hca4, hv2]

/-- C7 amended witness: the refusal evaluated on a concrete cancelled
run. -/
theorem c7_cancel_refuses_next_stage_amended_witness :
    (Joker.run behAllGood 1 3 caFrom4).2 = .error .cancelled ∧
    (Joker.run behAllGood 1 3 caFrom4).1.calls.video = 0 ∧
    (Joker.run behAllGood 1 3 caFrom4).1.calls.assembly = 0 ∧
    (Joker.run behAllGood 1 3 caFrom4).1.st.steps.video.status = .pending ∧
    (Joker.run behAllGood 1 3 caFrom4).1.st.steps.assembly.status = .pending ∧
    (Joker.run behAllGood 1 3 caFrom4).1.st.steps.content.status = .failed ∧
    (Joker.run behAllGood 1 3 caFrom4).1.st.steps.content.error = some .cancelled ∧
    ((Joker.run behAllGood 1 3 caFrom4).1.snapshots.all
      (fun s => s.status == RunStatus.idle)) = true :=
  c7_cancel_refuses_next_stage_amended behAllGood 1
    { cost := 1, confidence := 2, url := "u", angles := 3 }
    { cost := 1, confidence := 2, url := "u", angles := 3 }
    { cost := 1, confidence := 2, url := "u", angles := 3 }
    { cost := 1, confidence := 2, url := "u", angles := 3 }
    caFrom4 rfl rfl rfl rfl rfl rfl rfl rfl rfl

section ProgressLemmas

theorem calcLoop_snd_nonneg (l : List Types.PipelineStepStatus)
    (h : ∀ r ∈ l, 0 ≤ r.progress) : 0 ≤ (Utils.calcLoop l).2 := by
  induction l with
  | nil => simp [Utils.calcLoop]
  | cons r rest ih =>
      have hr := h r (by simp)
      have hrest : ∀ x ∈ rest, 0 ≤ x.progress := fun x hx => h x (by simp [hx])
      cases hst : r.status <;>
        simp [Utils.calcLoop, hst] <;>
        first
        | exact ih hrest
        | positivity

end ProgressLemmas

/-- C9: whenever every per-step progress lies in [0, 100],
`calculateProgress` returns an integer in [0, 100]; it returns 100 when
all six steps have status success and 0 when all six are pending. -/
theorem c9_calculate_progress_bounds (s : Types.PipelineSteps)
    (h : ∀ r ∈ Utils.stepsList s, 0 ≤ r.progress ∧ r.progress ≤ 100) :
    0 ≤ Utils.calculateProgress s ∧ Utils.calculateProgress s ≤ 100 ∧
    ((∀ r ∈ Utils.stepsList s, r.status = .success) →
      Utils.calculateProgress s = 100) ∧
    ((∀ r ∈ Utils.stepsList s, r.status = .pending) →
      Utils.calculateProgress s = 0) := by
  refine ⟨?_, ?_, ?_, ?_⟩
  · have hp : 0 ≤ (Utils.calcLoop (Utils.stepsList s)).2 :=
      calcLoop_snd_nonneg _ (fun r hr => (h r hr).1)
    have hq : (0 : ℚ) ≤
        (((Utils.calcLoop (Utils.stepsList s)).1 + (Utils.calcLoop (Utils.stepsList s)).2) / 6) * 100 := by
      have : (0 : ℚ) ≤ ((Utils.calcLoop (Utils.stepsList s)).1 : ℚ) := by positivity
      have hsum : (0 : ℚ) ≤
          ((Utils.calcLoop (Utils.stepsList s)).1 + (Utils.calcLoop (Utils.stepsList s)).2) :=
        add_nonneg this hp
      have h6 : (0 : ℚ) ≤
          ((Utils.calcLoop (Utils.stepsList s)).1 + (Utils.calcLoop (Utils.stepsList s)).2) / 6 :=
        div_nonneg hsum (by norm_num)
      exact mul_nonneg h6 (by norm_num)
    unfold Utils.calculateProgress
    refine le_min ?_ (by norm_num)
    rw [round_eq]
    exact Int.floor_nonneg.2 (by linarith)
  · unfold Utils.calculateProgress
    exact min_le_right _ _
  · intro hall
    have e1 := hall s.scraping (by simp [Utils.stepsList])
    have e2 := hall s.vision (by simp [Utils.stepsList])
    have e3 := hall s.background (by simp [Utils.stepsList])
    have e4 := hall s.content (by simp [Utils.stepsList])
    have e5 := hall s.video (by simp [Utils.stepsList])
    have e6 := hall s.assembly (by simp [Utils.stepsList])
    unfold Utils.calculateProgress Utils.stepsList
    simp [Utils.calcLoop, e1, e2, e3, e4, e5, e6]
  · intro hall
    have e1 := hall s.scraping (by simp [Utils.stepsList])
    have e2 := hall s.vision (by simp [Utils.stepsList])
    have e3 := hall s.background (by simp [Utils.stepsList])
    have e4 := hall s.content (by simp [Utils.stepsList])
    have e5 := hall s.video (by simp [Utils.stepsList])
    have e6 := hall s.assembly (by simp [Utils.stepsList])
    unfold Utils.calculateProgress Utils.stepsList
    simp [Utils.calcLoop, e1, e2, e3, e4, e5, e6]

/-- Concrete steps: all six successful. -/
def stepSuccessFull : Types.PipelineStepStatus :=
  { status := .success, progress := 100, startedAt := some 0, completedAt := some 1,
    error := none }

def stepsAllSuccess : Types.PipelineSteps :=
  { scraping := stepSuccessFull, vision := stepSuccessFull,
    background := stepSuccessFull, content := stepSuccessFull,
    video := stepSuccessFull, assembly := stepSuccessFull }

/-- C9 witness: the bounds evaluated on the all-success configuration. -/
theorem c9_calculate_progress_bounds_witness :
    0 ≤ Utils.calculateProgress stepsAllSuccess ∧
    Utils.calculateProgress stepsAllSuccess = 100 :=
  ⟨(c9_calculate_progress_bounds stepsAllSuccess
      (by intro r hr; simp [Utils.stepsList, stepsAllSuccess] at hr; subst hr;
          norm_num [stepSuccessFull])).1,
   (c9_calculate_progress_bounds stepsAllSuccess
      (by intro r hr; simp [Utils.stepsList, stepsAllSuccess] at hr; subst hr;
          norm_num [stepSuccessFull])).2.2.1
    (by intro r hr; simp [Utils.stepsList, stepsAllSuccess] at hr; subst hr; rfl)⟩

/-- A validated response whose three angles all self-score 5, averaging
5/10 — below the quality threshold of 7. -/
def lowAngles : Mistral.AngleResponse :=
  { angles :=
      [ { hook := "hook number one", script := "first script", qualityScore := 5,
          estimatedEngagement := 50 },
        { hook := "hook number two", script := "second script", qualityScore := 5,
          estimatedEngagement := 50 },
        { hook := "hook number three", script := "third script", qualityScore := 5,
          estimatedEngagement := 50 } ] }

/-- C8 counterexample: when both quality-loop attempts parse and validate
but average 5/10 against the 7/10 minimum, `generateMarketingAngles`
does not fail — after the second below-threshold attempt it returns the
low-scoring angles (`result` is `ok`), having invoked the wrapped call
exactly twice.  The `Quality score too low` error is never propagated. -/
theorem c8_counterexample :
    (Mistral.generateMarketingAngles true true true
      (fun _ => .ok (lowAngles, 1))).result.isOk = true ∧
    (Mistral.generateMarketingAngles true true true
      (fun _ => .ok (lowAngles, 1))).outerCalls = 2 := by
  norm_num [Mistral.generateMarketingAngles, Mistral.callMistralAPIWithRetry,
    Mistral.callMistralAux, Mistral.genAttempt2, Mistral.calculateAverageQuality,
    Mistral.MIN_QUALITY_SCORE, Mistral.MAX_RETRIES, lowAngles, Except.isOk,
    Except.toBool]

/-- C8 amended: the quality loop invokes the wrapped
generation-and-score call at most 2 times in total; but after a second
attempt that still scores below the threshold the call succeeds,
returning the below-threshold angles of the second response — the
failure reporting the measured score and the minimum threshold exists
only as a local `lastError` that is either discarded (line 230 falls
through to the return) or overwritten by a thrown transport error
before the terminal throw. -/
theorem c8_quality_loop_amended :
    (∀ (ks pd vs : Bool) (b : ℕ → Except String (Mistral.AngleResponse × ℚ)),
      (Mistral.generateMarketingAngles ks pd vs b).outerCalls ≤ 2) ∧
    ∀ (b : ℕ → Except String (Mistral.AngleResponse × ℚ))
      (r1 r2 : Mistral.AngleResponse) (c1 c2 : ℚ),
      b 0 = .ok (r1, c1) →
      Mistral.calculateAverageQuality r1.angles < Mistral.MIN_QUALITY_SCORE →
      b 1 = .ok (r2, c2) →
      Mistral.calculateAverageQuality r2.angles < Mistral.MIN_QUALITY_SCORE →
      (Mistral.generateMarketingAngles true true true b).result =
        .ok (r2.angles.map Mistral.toMarketingAngle) ∧
      (Mistral.generateMarketingAngles true true true b).apiCalls = 2 := by
  constructor
  · intro ks pd vs b
    cases ks <;> cases pd <;> cases vs <;>
      simp only [Mistral.generateMarketingAngles, Mistral.genAttempt2] <;>
      (repeat' split) <;> simp
  · intro b r1 r2 c1 c2 hb0 hq1 hb1 hq2
    simp [Mistral.generateMarketingAngles, Mistral.callMistralAPIWithRetry,
      Mistral.callMistralAux, Mistral.genAttempt2, Mistral.MAX_RETRIES,
      hb0, hb1, hq1, hq2]

/-- C8 amended witness: evaluated on the below-threshold behaviour. -/
theorem c8_quality_loop_amended_witness :
    (Mistral.generateMarketingAngles true true true
      (fun _ => .ok (lowAngles, 1))).outerCalls ≤ 2 ∧
    (Mistral.generateMarketingAngles true true true
      (fun _ => .ok (lowAngles, 1))).result =
      .ok (lowAngles.angles.map Mistral.toMarketingAngle) :=
  ⟨c8_quality_loop_amended.1 true true true (fun _ => .ok (lowAngles, 1)),
   (c8_quality_loop_amended.2 (fun _ => .ok (lowAngles, 1)) lowAngles lowAngles 1 1
      rfl
      (by norm_num [Mistral.calculateAverageQuality, Mistral.MIN_QUALITY_SCORE, lowAngles])
      rfl
      (by norm_num [Mistral.calculateAverageQuality, Mistral.MIN_QUALITY_SCORE, lowAngles])).1⟩

section EscapeLemmas

theorem escapeChar_no_forbidden (x : Char) :
    ∀ c ∈ (Shotstack.escapeChar x).data,
      ¬(c = '<' ∨ c = '>' ∨ c = Shotstack.dquote ∨ c = Shotstack.squote) := by
  intro c hc
  unfold Shotstack.escapeChar at hc
  split at hc
  · rw [show ("&amp;" : String).data = ['&', 'a', 'm', 'p', ';'] from rfl] at hc
    simp at hc
    rcases hc with rfl | rfl | rfl | rfl | rfl <;> decide
  · split at hc
    · rw [show ("&lt;" : String).data = ['&', 'l', 't', ';'] from rfl] at hc
      simp at hc
      rcases hc with rfl | rfl | rfl | rfl <;> decide
    · split at hc
      · rw [show ("&gt;" : String).data = ['&', 'g', 't', ';'] from rfl] at hc
        simp at hc
        rcases hc with rfl | rfl | rfl | rfl <;> decide
      · split at hc
        · rw [show ("&quot;" : String).data = ['&', 'q', 'u', 'o', 't', ';'] from rfl] at hc
          simp at hc
          rcases hc with rfl | rfl | rfl | rfl | rfl | rfl <;> decide
        · split at hc
          · rw [show ("&#039;" : String).data = ['&', '#', '0', '3', '9', ';'] from rfl] at hc
            simp at hc
            rcases hc with rfl | rfl | rfl | rfl | rfl | rfl <;> decide
          · rename_i h1 h2 h3 h4 h5
            rw [show (String.mk [x]).data = [x] from rfl] at hc
            simp at hc
            subst hc
            intro hcon
            rcases hcon with h | h | h | h
            · exact h2 h
            · exact h3 h
            · exact h4 h
            · exact h5 h

end EscapeLemmas

/-- C10: `escapeHtml` maps each of the five special characters to its
HTML entity and leaves every other character unchanged, and its output
never contains a raw less-than, greater-than, double-quote or
single-quote character; consequently the hook and caption text
interpolated into the HTML assets of `createTimeline` always passes through
`escapeHtml` — every html-typed clip source is one of the two fixed
templates applied to an escaped string. -/
theorem c10_escape_html_timeline :
    (Shotstack.escapeChar '&' = "&amp;" ∧ Shotstack.escapeChar '<' = "&lt;" ∧
      Shotstack.escapeChar '>' = "&gt;" ∧
      Shotstack.escapeChar Shotstack.dquote = "&quot;" ∧
      Shotstack.escapeChar Shotstack.squote = "&#039;" ∧
      ∀ c : Char, ¬(c = '&' ∨ c = '<' ∨ c = '>' ∨ c = Shotstack.dquote ∨
        c = Shotstack.squote) → Shotstack.escapeChar c = String.mk [c]) ∧
    (∀ (s : String), ∀ c ∈ (Shotstack.escapeHtml s).data,
      ¬(c = '<' ∨ c = '>' ∨ c = Shotstack.dquote ∨ c = Shotstack.squote)) ∧
    ∀ (p : Shotstack.TimelineParams),
      ∀ clip ∈ Shotstack.allClips (Shotstack.createTimeline p),
        clip.asset.type = "html" →
        ∃ raw, clip.asset.src = Shotstack.hookSrc (Shotstack.escapeHtml raw) ∨
               clip.asset.src = Shotstack.captionSrc (Shotstack.escapeHtml raw) := by
  refine ⟨⟨by decide, by decide, by decide, by decide, by decide, ?_⟩, ?_, ?_⟩
  · intro c hc
    unfold Shotstack.escapeChar
    push_neg at hc
    obtain ⟨n1, n2, n3, n4, n5⟩ := hc
    simp [n1, n2, n3, n4, n5]
  · intro s c hc
    rw [show (Shotstack.escapeHtml s).data
        = s.data.flatMap (fun x => (Shotstack.escapeChar x).data) from rfl] at hc
    rw [List.mem_flatMap] at hc
    obtain ⟨x, _, hcx⟩ := hc
    exact escapeChar_no_forbidden x c hcx
  · intro p clip hmem htype
    unfold Shotstack.allClips Shotstack.createTimeline at hmem
    by_cases hhook : (p.hook != "" && jsTrim p.hook != "") = true <;>
      by_cases hscript : (p.script != "" && jsTrim p.script != "") = true <;>
      simp [hhook, hscript, List.mem_append, List.mem_flatMap, List.mem_map] at hmem
    · rcases hmem with rfl | rfl | rfl | ⟨a, b, hab, hf⟩
      · simp at htype
      · simp at htype
      · exact ⟨p.hook, Or.inl rfl⟩
      · exact ⟨jsTrim b, Or.inr (by rw [← hf])⟩
    · rcases hmem with rfl | rfl | rfl
      · simp at htype
      · simp at htype
      · exact ⟨p.hook, Or.inl rfl⟩
    · rcases hmem with rfl | rfl | ⟨a, b, hab, hf⟩
      · simp at htype
      · simp at htype
      · exact ⟨jsTrim b, Or.inr (by rw [← hf])⟩
    · rcases hmem with rfl | rfl
      · simp at htype
      · simp at htype

/-- Parameters with a hook containing a raw `<` and no script. -/
def tparamsW : Shotstack.TimelineParams :=
  { videoUrl := "v", productImageUrl := "p", transparentProductUrl := "t",
    script := "", hook := "H<i", videoDuration := 2 }

/-- The hook overlay clip `createTimeline` builds for `tparamsW`. -/
def hookClipW : Shotstack.ShotstackClip :=
  { asset := { type := "html", src := Shotstack.hookSrc (Shotstack.escapeHtml "H<i") }
    start := 0, length := 2, position := some "top", offsetY := some (mkRat 1 10) }

set_option maxRecDepth 8000 in
/-- C10 witness: the escaping properties evaluated at concrete inputs. -/
theorem c10_escape_html_timeline_witness :
    Shotstack.escapeChar 'x' = String.mk ['x'] ∧
    ¬('a' = '<' ∨ 'a' = '>' ∨ 'a' = Shotstack.dquote ∨ 'a' = Shotstack.squote) ∧
    ∃ raw, hookClipW.asset.src = Shotstack.hookSrc (Shotstack.escapeHtml raw) ∨
           hookClipW.asset.src = Shotstack.captionSrc (Shotstack.escapeHtml raw) :=
  ⟨c10_escape_html_timeline.1.2.2.2.2.2 'x' (by decide),
   c10_escape_html_timeline.2.1 "a<b" 'a' (by decide),
   c10_escape_html_timeline.2.2 tparamsW hookClipW (by decide) rfl⟩
